import Mathlib

/-!
Verification development for the agent-learning core of the repository:
the tiered memory store (`memory_manager.py`), the heuristic style
analyzer (`style_analyzer.py`) and the learning engine
(`learning_engine.py`).  Python functions are shallowly embedded as
executable Lean definitions: strings are `String`, Python `float`
importances and scores are modelled by exact rationals `ℚ`,
`datetime.utcnow()` is an explicit `Nat` clock argument, and a `uuid4`
id is a fresh value drawn from a monotone counter in the store state.
Exceptions raised by the external storage backends are modelled by
explicit failure flags; a raised-and-caught exception corresponds to a
flag that sends the code down its `except` branch, and a raised
exception that no `except` clause of the write path catches is modelled
by the `Except`-valued store `storeMemoryE`, whose error value is the
exception escaping to the caller.  Where the code computes with Python
floats, two models are given: exact rational arithmetic, and a faithful
IEEE binary64 model (`roundB64` and the `f`-prefixed operations)
rounding every literal and operation to 53-bit precision, half to even.
-/

namespace AgentLearning

/-! ### String helpers shared by the Python modules -/

/-- ASCII lower-casing of one character, the effect of Python's
`str.lower()` on the ASCII texts handled here. -/
def lowerChar (c : Char) : Char :=
  if 'A' ≤ c ∧ c ≤ 'Z' then Char.ofNat (c.toNat + 32) else c

/-- Python `text.lower()`. -/
def strLower (s : String) : String := String.mk (s.data.map lowerChar)

/-- Helper for `pyWords`: accumulates the current word (reversed). -/
def pyWordsAux (cur : List Char) : List Char → List String
  | [] => if cur.isEmpty then [] else [String.mk cur.reverse]
  | c :: t =>
    if c.isWhitespace then
      if cur.isEmpty then pyWordsAux [] t
      else String.mk cur.reverse :: pyWordsAux [] t
    else pyWordsAux (c :: cur) t

/-- Python `text.split()`: split on runs of whitespace, no empty words. -/
def pyWords (s : String) : List String := pyWordsAux [] s.data

/-- Occurrence test of a character sequence inside another
(Python's `needle in haystack`). -/
def subOcc (n : List Char) : List Char → Bool
  | [] => n.isEmpty
  | c :: t => n.isPrefixOf (c :: t) || subOcc n t

/-- Python `needle in haystack` on strings. -/
def containsSub (needle hay : String) : Bool := subOcc needle.data hay.data

/-- A regex word character `\w` for the ASCII texts involved. -/
def isWordChar (c : Char) : Bool := c.isAlphanum || c == '_'

/-- Does the pattern word `w`, surrounded by `\b` word boundaries, match at
the head of `rest`, given the character `prev` just before it? -/
def boundedAt (w : List Char) (prev : Option Char) (rest : List Char) : Bool :=
  w.isPrefixOf rest
    && (match prev with | none => true | some p => !isWordChar p)
    && (match rest.drop w.length with | [] => true | c :: _ => !isWordChar c)

/-- Count the boundary-delimited occurrences of `w` in the remaining text,
`prev` being the character just before it. -/
def countOccAux (w : List Char) (prev : Option Char) : List Char → Nat
  | [] => 0
  | c :: t => (if boundedAt w prev (c :: t) then 1 else 0) + countOccAux w (some c) t

/-- Number of matches of `re.findall(r'\b<w>\b', t)`. -/
def countWordOccs (w : String) (t : String) : Nat := countOccAux w.data none t.data

/-! ### Style analyzer (`style_analyzer.py`) -/

/-- `StyleAnalysis` dataclass. -/
structure StyleAnalysis where
  formality_score : ℚ
  technical_depth : String
  response_length : String
  communication_tone : String
  common_patterns : List String
  personality_traits : List String
  deriving DecidableEq

/-- `self.formal_patterns`: the alternatives of each formal regex. -/
def formalPatterns : List (List String) :=
  [["please", "thank you", "appreciate", "regards", "sincerely"],
   ["would", "could", "should", "might"],
   ["however", "therefore", "furthermore", "moreover"],
   ["utilize", "implement", "facilitate", "endeavor"]]

/-- `self.casual_patterns`: the alternatives of each casual regex. -/
def casualPatterns : List (List String) :=
  [["hey", "hi", "hello", "yo"],
   ["yeah", "yep", "nope", "nah"],
   ["cool", "awesome", "great", "nice"],
   ["btw", "fyi", "imo", "tbh"],
   ["lol", "haha", "lmao"]]

/-- Total number of matches of a list of word-boundary alternation
patterns against `t` (the alternatives are pairwise non-overlapping as
whole words, so the `re.findall` count is the sum of per-word counts). -/
def countPatterns (ps : List (List String)) (t : String) : Nat :=
  (ps.map (fun ws => (ws.map (fun w => countWordOccs w t)).sum)).sum

/-- Formal-pattern match count of `_analyze_formality`. -/
def formalCount (t : String) : Nat := countPatterns formalPatterns t

/-- Casual-pattern match count of `_analyze_formality`. -/
def casualCount (t : String) : Nat := countPatterns casualPatterns t

/-- `StyleAnalyzer._analyze_formality` (its argument is already
lower-cased by every caller). -/
def analyzeFormality (t : String) : ℚ :=
  let formal := formalCount t
  let casual := casualCount t
  if formal + casual = 0 then Rat.divInt 1 2
  else (formal : ℚ) / ((formal : ℚ) + (casual : ℚ))

/-- `self.technical_categories`. -/
def technicalCategories : List (String × List String) :=
  [("programming", ["code", "function", "variable", "class", "method", "algorithm"]),
   ("web_dev", ["html", "css", "javascript", "react", "angular", "vue"]),
   ("backend", ["api", "server", "database", "sql", "nosql", "rest"]),
   ("cloud", ["aws", "azure", "gcp", "docker", "kubernetes", "deployment"]),
   ("mobile", ["ios", "android", "react native", "flutter", "swift", "kotlin"]),
   ("ai_ml", ["machine learning", "neural network", "model", "training", "inference"])]

/-- `StyleAnalyzer._analyze_technical_depth` (substring containment test
per term, summed over the categories). -/
def analyzeTechnicalDepth (t : String) : String :=
  let total := (technicalCategories.map
    (fun c => (c.2.filter (fun term => containsSub term t)).length)).sum
  if 5 ≤ total then "high" else if 2 ≤ total then "medium" else "low"

/-- `StyleAnalyzer._analyze_response_length`. -/
def analyzeResponseLength (t : String) : String :=
  let wc := (pyWords t).length
  if wc ≤ 20 then "short" else if wc ≤ 100 then "medium" else "long"

/-- The `friendly_indicators` of `_analyze_communication_tone`. -/
def friendlyIndicators : List String :=
  ["great", "awesome", "cool", "nice", "good", "excellent", "wonderful"]

/-- The `professional_indicators` of `_analyze_communication_tone`. -/
def professionalIndicators : List String :=
  ["please", "thank you", "regards", "sincerely", "appreciate"]

/-- The `technical_indicators` of `_analyze_communication_tone`. -/
def technicalIndicators : List String :=
  ["api", "database", "server", "code", "function", "algorithm"]

/-- Number of indicators of a set occurring (as substrings) in `t`. -/
def indicatorCount (inds : List String) (t : String) : Nat :=
  (inds.filter (fun w => containsSub w t)).length

/-- `StyleAnalyzer._analyze_communication_tone`. -/
def analyzeCommunicationTone (t : String) : String :=
  let friendly := indicatorCount friendlyIndicators t
  let professional := indicatorCount professionalIndicators t
  let technical := indicatorCount technicalIndicators t
  if friendly < technical ∧ professional < technical then "technical"
  else if friendly < professional then "professional"
  else "friendly"

/-- The backtick character, written by code point. -/
def btick : Char := Char.ofNat 96

/-- Is there a numbered-list marker `\d+\.\s` in the text?  Presence is
equivalent to some digit immediately followed by a dot and a whitespace. -/
def hasNumberedList : List Char → Bool
  | a :: b :: c :: t =>
    (a.isDigit && b == '.' && c.isWhitespace) || hasNumberedList (b :: c :: t)
  | _ => false

/-- Is there a bullet marker `[-*]\s` in the text? -/
def hasBulletList : List Char → Bool
  | a :: b :: t => ((a == '-' || a == '*') && b.isWhitespace) || hasBulletList (b :: t)
  | _ => false

/-- After an opening backtick: does a nonempty backtick-free run followed
by a closing backtick start here? -/
def inlineCodeClose : List Char → Bool
  | [] => false
  | c :: t => c == btick || inlineCodeClose t

/-- Presence of an inline code span `` `[^`]+` ``. -/
def hasInlineCode : List Char → Bool
  | [] => false
  | c :: t =>
    (c == btick && (match t with
      | [] => false
      | d :: r => !(d == btick) && inlineCodeClose r))
    || hasInlineCode t

/-- Presence of an emoji in the range of the pattern `[😀-🙏]`. -/
def hasEmoji (l : List Char) : Bool :=
  l.any (fun c => 128512 ≤ c.toNat && c.toNat ≤ 128591)

/-- `StyleAnalyzer._extract_common_patterns`. -/
def extractCommonPatterns (t : String) : List String :=
  (if containsSub "?" t then ["asks_questions"] else [])
  ++ (if containsSub "!" t then ["uses_exclamations"] else [])
  ++ (if hasNumberedList t.data || hasBulletList t.data then ["uses_lists"] else [])
  ++ (if containsSub "```" t || hasInlineCode t.data then ["includes_code"] else [])
  ++ (if containsSub "http://" t || containsSub "https://" t then ["shares_links"] else [])
  ++ (if hasEmoji t.data then ["uses_emojis"] else [])

/-- `self.personality_indicators`. -/
def personalityIndicators : List (String × List String) :=
  [("detail_oriented", ["specifically", "precisely", "exactly", "detailed", "thorough"]),
   ("collaborative", ["team", "together", "collaborate", "discuss", "input"]),
   ("solution_focused", ["solution", "fix", "resolve", "solve", "address"]),
   ("creative", ["creative", "innovative", "unique", "different", "approach"]),
   ("analytical", ["analyze", "data", "metrics", "measure", "evaluate"])]

/-- `StyleAnalyzer._analyze_personality_traits`. -/
def analyzePersonalityTraits (t : String) : List String :=
  (personalityIndicators.filter (fun p => 2 ≤ indicatorCount p.2 t)).map (·.1)

/-- `StyleAnalyzer.analyze_style`. -/
def analyzeStyle (text : String) : StyleAnalysis :=
  let tl := strLower text
  { formality_score := analyzeFormality tl
    technical_depth := analyzeTechnicalDepth tl
    response_length := analyzeResponseLength text
    communication_tone := analyzeCommunicationTone tl
    common_patterns := extractCommonPatterns tl
    personality_traits := analyzePersonalityTraits tl }

/-! ### Memory manager data model (`memory_manager.py`) -/

/-- `MemoryEntry` dataclass.  `id` is the value drawn from the store's
uuid counter, `importance` is an exact rational, `timestamp` the `Nat`
clock at write time, `metadata` a finite string map. -/
structure MemoryEntry where
  id : Nat
  agent_id : String
  user_id : Option String
  content : String
  memory_type : String
  importance : ℚ
  timestamp : Nat
  metadata : List (String × String)
  tags : List String
  deriving DecidableEq

/-- The three backend tiers of the store. -/
inductive Tier where
  | bedrock
  | dynamo
  | localT
  deriving DecidableEq

/-- Static configuration of a `MemoryManager` instance:
`use_aws_memory`, `use_bedrock_memory`, and whether
`self.memory_table` was successfully initialised (`is not None`). -/
structure MMConfig where
  useAws : Bool
  useBedrock : Bool
  tablePresent : Bool
  deriving DecidableEq

/-- Behaviour of the external backends during one call, restricted to
the failures the code catches.  A `true` write flag means the backend
call raises the exception that the corresponding `except` clause
catches (`Exception` for Bedrock, `ClientError` for DynamoDB); same for
the read flags.  `bedrockResp` is the list of entries a successful
Bedrock retrieval parses out of the external service's citations.
The DynamoDB tier's uncaught failure path — `put_item` raising anything
other than a `ClientError`, which escapes `store_memory` — is outside
this type; it is modelled by `EnvE` and `storeMemoryE` below. -/
structure Env where
  bedrockWriteFails : Bool
  dynamoWriteFails : Bool
  bedrockReadFails : Bool
  dynamoReadFails : Bool
  bedrockResp : List MemoryEntry

/-- State of a `MemoryManager`: the event log held by the external
Bedrock service, the DynamoDB table partition (in the backend's sort
order), `self.local_memories` as a total map defaulting to `[]`
(a missing dict key and an empty list are indistinguishable to the
code), and the uuid counter. -/
structure MMState where
  bedrockEvents : List MemoryEntry
  dynamoItems : List MemoryEntry
  localMem : String → List MemoryEntry
  nextId : Nat

/-- A pending `store_memory` call: the arguments of one write. -/
structure WriteReq where
  agent : String
  content : String
  memory_type : String
  user_id : Option String
  importance : ℚ
  metadata : List (String × String)
  tags : List String
  deriving DecidableEq

/-- The `MemoryEntry` that `store_memory` constructs for a request. -/
def mkEntry (st : MMState) (now : Nat) (w : WriteReq) : MemoryEntry :=
  { id := st.nextId, agent_id := w.agent, user_id := w.user_id,
    content := w.content, memory_type := w.memory_type,
    importance := w.importance, timestamp := now,
    metadata := w.metadata, tags := w.tags }

/-- `MemoryManager._store_locally` on the per-agent map: append, then
keep only the last 1000 entries of that agent's log. -/
def storeLocalFun (m : String → List MemoryEntry) (e : MemoryEntry) :
    String → List MemoryEntry := fun a =>
  if a = e.agent_id then
    let l := m e.agent_id ++ [e]
    if 1000 < l.length then l.drop (l.length - 1000) else l
  else m a

/-- The local-tier step of a store, with its attempt trace. -/
def localStep (st : MMState) (e : MemoryEntry) : MMState × List Tier :=
  ({ st with localMem := storeLocalFun st.localMem e }, [Tier.localT])

/-- `MemoryManager._store_in_dynamodb`, restricted to the failure its
`except ClientError` clause catches: a missing table or a raised
`ClientError` falls back to `_store_locally`.  An exception of any other
type raised by `put_item` escapes the method; that uncaught path is
modelled by `dynamoStepE` below. -/
def dynamoStep (cfg : MMConfig) (env : Env) (st : MMState) (e : MemoryEntry) :
    MMState × List Tier :=
  if !cfg.tablePresent then localStep st e
  else if env.dynamoWriteFails then
    ((localStep st e).1, Tier.dynamo :: (localStep st e).2)
  else ({ st with dynamoItems := st.dynamoItems ++ [e] }, [Tier.dynamo])

/-- `MemoryManager._store_in_bedrock_memory`: any raised exception falls
back to `_store_in_dynamodb`. -/
def bedrockStep (cfg : MMConfig) (env : Env) (st : MMState) (e : MemoryEntry) :
    MMState × List Tier :=
  if env.bedrockWriteFails then
    ((dynamoStep cfg env st e).1, Tier.bedrock :: (dynamoStep cfg env st e).2)
  else ({ st with bedrockEvents := st.bedrockEvents ++ [e] }, [Tier.bedrock])

/-- `MemoryManager.store_memory`: build the entry with a fresh id and
the current time, dispatch on the configuration, and return the id, the
new state and the trace of attempted tiers. -/
def storeMemory (cfg : MMConfig) (env : Env) (st : MMState) (now : Nat)
    (w : WriteReq) : Nat × MMState × List Tier :=
  let e := mkEntry st now w
  let st1 : MMState := { st with nextId := st.nextId + 1 }
  let r :=
    if cfg.useAws && cfg.useBedrock then bedrockStep cfg env st1 e
    else if cfg.useAws then dynamoStep cfg env st1 e
    else localStep st1 e
  (e.id, r)

/-- Python truthiness of an optional string (`None` and `""` are falsy). -/
def truthyOpt : Option String → Bool
  | none => false
  | some s => !(s = "")

/-- The filter of `_retrieve_locally`: an entry is kept unless a truthy
`memory_type` argument differs from its type, a truthy `user_id` argument
differs from its user, or its importance is below the threshold. -/
def keepEntry (mtype user : Option String) (thr : ℚ) (e : MemoryEntry) : Bool :=
  (match mtype with
    | none => true
    | some t => if t = "" then true else decide (e.memory_type = t))
  && (match user with
    | none => true
    | some u => if u = "" then true else decide (e.user_id = some u))
  && decide (thr ≤ e.importance)

/-- Stable insertion (descending by `key`) used to model Python's stable
`list.sort(key=..., reverse=True)`. -/
def insertDescBy (key : MemoryEntry → Nat) (e : MemoryEntry) :
    List MemoryEntry → List MemoryEntry
  | [] => [e]
  | x :: xs => if key e < key x then x :: insertDescBy key e xs else e :: x :: xs

/-- Stable descending sort by `key`. -/
def sortDescBy (key : MemoryEntry → Nat) (l : List MemoryEntry) :
    List MemoryEntry := l.foldr (insertDescBy key) []

/-- `MemoryManager._retrieve_locally`: filter, sort by timestamp most
recent first (stably), truncate to `limit`. -/
def retrieveLocally (m : String → List MemoryEntry) (agent : String)
    (mtype user : Option String) (limit : Nat) (thr : ℚ) : List MemoryEntry :=
  (sortDescBy (fun e => e.timestamp) ((m agent).filter (keepEntry mtype user thr))).take limit

/-- `MemoryManager._retrieve_from_dynamodb`.  The external query (§6 of
the spec) receives exactly the arguments the code passes: the partition
key `agent_id`, the filter `importance >= :threshold`, and `Limit`;
it returns the partition's items in backend order, limited, then
filtered.  The `memory_type` and `user_id` parameters of the Python
method are received but never reach the query, which the model mirrors
by ignoring them. -/
def retrieveFromDynamo (items : List MemoryEntry) (agent : String)
    (_mtype _user : Option String) (limit : Nat) (thr : ℚ) : List MemoryEntry :=
  ((items.filter (fun e => decide (e.agent_id = agent))).take limit).filter
    (fun e => decide (thr ≤ e.importance))

/-- `MemoryManager._retrieve_from_bedrock_memory` when the external call
succeeds: the parsed entries are kept when the importance threshold is
met and the requested type matches (lines 243-245), then truncated. -/
def retrieveFromBedrock (resp : List MemoryEntry) (mtype : Option String)
    (limit : Nat) (thr : ℚ) : List MemoryEntry :=
  (resp.filter (fun e =>
    decide (thr ≤ e.importance)
      && (match mtype with | none => true | some t => decide (e.memory_type = t)))).take limit

/-- `MemoryManager.retrieve_memories`: the same tier dispatch as the
write path, each failing tier falling through to the next. -/
def retrieveMemories (cfg : MMConfig) (env : Env) (st : MMState) (agent : String)
    (mtype user : Option String) (limit : Nat) (thr : ℚ) : List MemoryEntry :=
  let localPath := retrieveLocally st.localMem agent mtype user limit thr
  let dynamoPath :=
    if !cfg.tablePresent then localPath
    else if env.dynamoReadFails then localPath
    else retrieveFromDynamo st.dynamoItems agent mtype user limit thr
  if cfg.useAws && cfg.useBedrock then
    if env.bedrockReadFails then dynamoPath
    else retrieveFromBedrock env.bedrockResp mtype limit thr
  else if cfg.useAws then dynamoPath
  else localPath

/-- `ContextWindow` dataclass. -/
structure ContextWindow where
  recent_conversations : List MemoryEntry
  relevant_knowledge : List MemoryEntry
  user_preferences : List (String × String)
  current_topic : Option String

/-- The fixed keyword list of `_extract_current_topic`. -/
def topicKeywords : List String :=
  ["mobile", "database", "ai", "cloud", "frontend", "backend"]

/-- `MemoryManager._extract_current_topic`: `None` on no conversations,
otherwise the first keyword occurring (case-insensitively, as a
substring) in the joined contents of the first three entries. -/
def extractCurrentTopic (convs : List MemoryEntry) : Option String :=
  if convs.isEmpty then none
  else
    let recent := String.intercalate " " ((convs.take 3).map (·.content))
    topicKeywords.find? (fun k => containsSub (strLower k) (strLower recent))

/-- `MemoryManager._get_user_preferences`. -/
def getUserPreferences (cfg : MMConfig) (env : Env) (st : MMState)
    (agent : String) (user : Option String) : List (String × String) :=
  if !truthyOpt user then []
  else
    match retrieveMemories cfg env st agent (some "preferences") user 1 0 with
    | p :: _ => p.metadata
    | [] => []

/-- `MemoryManager.get_context_window`. -/
def getContextWindow (cfg : MMConfig) (env : Env) (st : MMState) (agent : String)
    (user : Option String) (conversationLimit : Nat := 10)
    (knowledgeLimit : Nat := 5) : ContextWindow :=
  let recent := retrieveMemories cfg env st agent (some "conversation") user
    conversationLimit 0
  let knowledge := retrieveMemories cfg env st agent (some "knowledge") user
    knowledgeLimit (Rat.divInt 7 10)
  { recent_conversations := recent
    relevant_knowledge := knowledge
    user_preferences := getUserPreferences cfg env st agent user
    current_topic := extractCurrentTopic recent }

/-- All entries held for an agent across the three tiers. -/
def entriesFor (st : MMState) (a : String) : List MemoryEntry :=
  st.bedrockEvents ++ st.dynamoItems ++ st.localMem a

/-- The text that `_extract_current_topic` scans: the joined contents of
the three most recent conversation entries of a context window. -/
def joinedRecent (cw : ContextWindow) : String :=
  String.intercalate " " ((cw.recent_conversations.take 3).map (·.content))

/-! ### Learning engine (`learning_engine.py`) -/

/-- The rolling communication style: the `'formality'` history list and
the `'avg_formality'` running mean (absent until the first sample). -/
structure CommStyle where
  formality : List ℚ
  avg_formality : Option ℚ
  deriving DecidableEq

/-- The technical-preference table: the `Counter` of
`'preferred_terms'` as an insertion-ordered association list. -/
structure TechPrefs where
  preferred_terms : List (String × Nat)
  deriving DecidableEq

/-- `AgentPersonality` dataclass (`response_patterns` is created empty
and never written by the code). -/
structure AgentPersonality where
  agent_id : String
  communication_style : CommStyle
  technical_preferences : TechPrefs
  response_patterns : List (String × String)
  learned_phrases : List String
  expertise_areas : List String
  last_updated : Nat
  deriving DecidableEq

/-- The fresh personality created on the first learning event. -/
def freshPersonality (a : String) (now : Nat) : AgentPersonality :=
  { agent_id := a, communication_style := { formality := [], avg_formality := none },
    technical_preferences := { preferred_terms := [] }, response_patterns := [],
    learned_phrases := [], expertise_areas := [], last_updated := now }

/-- The term list of `LearningEngine._count_technical_terms`. -/
def countTermList : List String :=
  ["api", "database", "server", "client", "frontend", "backend",
   "react", "node", "python", "javascript", "sql", "aws", "cloud",
   "docker", "kubernetes", "microservices", "architecture"]

/-- `LearningEngine._count_technical_terms`. -/
def countTechnicalTerms (text : String) : Nat :=
  (countTermList.filter (fun w => containsSub w (strLower text))).length

/-- The term list of `LearningEngine._extract_technical_terms`. -/
def extractTermList : List String :=
  ["api", "database", "server", "client", "frontend", "backend",
   "react", "node", "python", "javascript", "sql", "aws", "cloud",
   "docker", "kubernetes", "microservices", "architecture", "deployment",
   "scalability", "performance", "security", "authentication", "authorization"]

/-- `LearningEngine._extract_technical_terms`. -/
def extractTechnicalTerms (text : String) : List String :=
  extractTermList.filter (fun w => containsSub w (strLower text))

/-- `LearningEngine._extract_common_phrases`: adjacent word pairs of the
lower-cased message, keeping those longer than 5 characters, first 5. -/
def extractCommonPhrases (text : String) : List String :=
  let ws := pyWords (strLower text)
  (((List.range (ws.length - 1)).map
    (fun i => ws.getD i "" ++ " " ++ ws.getD (i + 1) "")).filter
      (fun p => 5 < p.length)).take 5

/-- `LearningEngine._assess_response_effectiveness`. -/
def assessResponseEffectiveness (um ar : String) : ℚ :=
  let userLen := (pyWords um).length
  let respLen := (pyWords ar).length
  let ratio : ℚ := (respLen : ℚ) / ((max userLen 1 : Nat) : ℚ)
  let s1 : ℚ := Rat.divInt 1 2
  let s2 := if Rat.divInt 1 2 ≤ ratio ∧ ratio ≤ 2 then s1 + Rat.divInt 1 5 else s1
  let s3 := if 0 < countTechnicalTerms um ∧ 0 < countTechnicalTerms ar
    then s2 + Rat.divInt 1 5 else s2
  let s4 := if containsSub "?" um
      ∧ (containsSub "yes" (strLower ar) ∨ containsSub "no" (strLower ar))
    then s3 + Rat.divInt 1 10 else s3
  min s4 1

/-- `LearningEngine._assess_technical_depth`. -/
def assessTechDepthLE (um ar : String) : String :=
  let total := countTechnicalTerms um + countTechnicalTerms ar
  if 5 ≤ total then "high" else if 2 ≤ total then "medium" else "low"

/-- `LearningEngine._update_communication_style`: append the formality
sample of the lower-cased user message, keep the last 10, recompute the
mean. -/
def updateCommunicationStyle (cs : CommStyle) (um : String) : CommStyle :=
  let f := analyzeFormality (strLower um)
  let hist := cs.formality ++ [f]
  let hist := if 10 < hist.length then hist.drop (hist.length - 10) else hist
  { formality := hist, avg_formality := some (hist.sum / (hist.length : ℚ)) }

/-- One `Counter` increment (a new key is appended, as a Python dict
preserves insertion order). -/
def bumpTerm : List (String × Nat) → String → List (String × Nat)
  | [], t => [(t, 1)]
  | (k, v) :: r, t => if k = t then (k, v + 1) :: r else (k, v) :: bumpTerm r t

/-- Generic stable insertion, descending by a `Nat` key. -/
def insertCntDesc (e : String × Nat) : List (String × Nat) → List (String × Nat)
  | [] => [e]
  | x :: xs => if e.2 < x.2 then x :: insertCntDesc e xs else e :: x :: xs

/-- `Counter.most_common`: stable descending sort by count. -/
def mostCommon (l : List (String × Nat)) : List (String × Nat) :=
  l.foldr insertCntDesc []

/-- `LearningEngine._update_technical_preferences`: fold the technical
terms of the user message into the counter and keep the top 20. -/
def updateTechnicalPreferences (tp : TechPrefs) (um : String) : TechPrefs :=
  let tbl := (extractTechnicalTerms um).foldl bumpTerm tp.preferred_terms
  { preferred_terms := (mostCommon tbl).take 20 }

/-- Rendering of a rational for the serialized snapshots. -/
def ratStr (q : ℚ) : String := toString q.num ++ "/" ++ toString q.den

/-- Rendering of a string list for the serialized snapshots. -/
def listStr (l : List String) : String :=
  "[" ++ String.intercalate ", " l ++ "]"

/-- The persisted personality snapshot of `_update_agent_personality`
(lines 160-165): full style and preferences, last 10 learned phrases. -/
structure PersonalitySnapshot where
  communication_style : CommStyle
  technical_preferences : TechPrefs
  learned_phrases : List String
  expertise_areas : List String
  deriving DecidableEq

/-- Last `n` elements of a list (Python `l[-n:]`). -/
def takeLast (n : Nat) (l : List String) : List String := l.drop (l.length - n)

/-- The snapshot serialized as the `personality_update` content. -/
def personalitySnapshot (p : AgentPersonality) : PersonalitySnapshot :=
  { communication_style := p.communication_style
    technical_preferences := p.technical_preferences
    learned_phrases := takeLast 10 p.learned_phrases
    expertise_areas := p.expertise_areas }

/-- Textual rendering of the snapshot, standing in for `json.dumps`; the
stored text is treated as opaque by every reader in the core. -/
def renderSnapshot (s : PersonalitySnapshot) : String :=
  "\x7bformality: " ++ listStr (s.communication_style.formality.map ratStr)
  ++ ", avg: " ++ (match s.communication_style.avg_formality with
      | none => "none" | some q => ratStr q)
  ++ ", preferred_terms: "
  ++ listStr (s.technical_preferences.preferred_terms.map
      (fun kv => kv.1 ++ ":" ++ toString kv.2))
  ++ ", learned_phrases: " ++ listStr s.learned_phrases
  ++ ", expertise_areas: " ++ listStr s.expertise_areas ++ "\x7d"

/-- Textual rendering of a serialized `StyleAnalysis` dict, standing in
for `json.dumps` of `user_style_dict`. -/
def renderStyle (s : StyleAnalysis) : String :=
  "\x7bformality_score: " ++ ratStr s.formality_score
  ++ ", technical_depth: " ++ s.technical_depth
  ++ ", response_length: " ++ s.response_length
  ++ ", communication_tone: " ++ s.communication_tone
  ++ ", common_patterns: " ++ listStr s.common_patterns
  ++ ", personality_traits: " ++ listStr s.personality_traits ++ "\x7d"

/-- Textual rendering of the `response_pattern` payload. -/
def renderResponsePattern (us : Option StyleAnalysis) (eff : ℚ)
    (respLen tech : Nat) : String :=
  "\x7buser_style: " ++ (match us with | none => "null" | some s => renderStyle s)
  ++ ", response_effectiveness: " ++ ratStr eff
  ++ ", response_length: " ++ toString respLen
  ++ ", technical_terms_used: " ++ toString tech ++ "\x7d"

/-- Textual rendering of the `technical_learning` payload. -/
def renderTechnical (userTerms respTerms : List String) (depth : String) : String :=
  "\x7buser_tech_terms: " ++ listStr userTerms
  ++ ", response_tech_terms: " ++ listStr respTerms
  ++ ", tech_depth: " ++ depth ++ "\x7d"

/-- `LearningEngine._update_agent_personality`: load or create the
cached personality, extend the phrases, fold the style and preference
updates, stamp the clock, and emit the `personality_update` write. -/
def updateAgentPersonality (cache : String → Option AgentPersonality)
    (a um : String) (user : Option String) (now : Nat) :
    AgentPersonality × WriteReq :=
  let p0 := (cache a).getD (freshPersonality a now)
  let p1 := { p0 with learned_phrases := p0.learned_phrases ++ extractCommonPhrases um }
  let p2 := { p1 with communication_style := updateCommunicationStyle p1.communication_style um }
  let p3 := { p2 with technical_preferences := updateTechnicalPreferences p2.technical_preferences um }
  let p4 := { p3 with last_updated := now }
  (p4, { agent := a, content := renderSnapshot (personalitySnapshot p4),
         memory_type := "personality_update", user_id := user,
         importance := Rat.divInt 9 10, metadata := [], tags := [] })

/-- One extracted knowledge snippet. -/
structure Snippet where
  content : String
  importance : ℚ
  metadata : List (String × String)
  tags : List String
  deriving DecidableEq

/-- Helper of `extractCodeBlocks`: scan for the earliest closing fence,
returning the enclosed characters and the rest after the fence. -/
def findCloseFence : List Char → Option (List Char × List Char)
  | [] => none
  | c :: t =>
    if "```".data.isPrefixOf (c :: t) then some ([], (c :: t).drop 3)
    else (findCloseFence t).map (fun mr => (c :: mr.1, mr.2))

/-- Fuelled scan implementing `re.findall(r'```[\s\S]*?```', s)`:
non-greedy fenced blocks, scanned left to right, non-overlapping. -/
def codeBlocksAux : Nat → List Char → List String
  | 0, _ => []
  | _ + 1, [] => []
  | fuel + 1, c :: t =>
    if "```".data.isPrefixOf (c :: t) then
      match findCloseFence ((c :: t).drop 3) with
      | some mr => String.mk ("```".data ++ mr.1 ++ "```".data) :: codeBlocksAux fuel mr.2
      | none => codeBlocksAux fuel t
    else codeBlocksAux fuel t

/-- All fenced code blocks of a text. -/
def extractCodeBlocks (s : String) : List String :=
  codeBlocksAux s.data.length s.data

/-- Fuelled scan implementing `re.findall(r'https?://[^\s]+', s)`. -/
def urlsAux : Nat → List Char → List String
  | 0, _ => []
  | _ + 1, [] => []
  | fuel + 1, c :: t =>
    let l := c :: t
    let scheme :=
      if "https://".data.isPrefixOf l then some 8
      else if "http://".data.isPrefixOf l then some 7
      else none
    match scheme with
    | some n =>
      let run := (l.drop n).takeWhile (fun d => !d.isWhitespace)
      if run.isEmpty then urlsAux fuel t
      else String.mk (l.take n ++ run) :: urlsAux fuel ((l.drop n).drop run.length)
    | none => urlsAux fuel t

/-- All URL matches of a text. -/
def extractUrls (s : String) : List String := urlsAux s.data.length s.data

/-- `LearningEngine._extract_knowledge_snippets`. -/
def extractKnowledgeSnippets (ar : String) : List Snippet :=
  ((extractCodeBlocks ar).map (fun c =>
    { content := c, importance := Rat.divInt 9 10,
      metadata := [("type", "code_snippet")], tags := ["code", "technical"] }))
  ++ ((extractUrls ar).map (fun u =>
    { content := u, importance := Rat.divInt 7 10,
      metadata := [("type", "reference_url")], tags := ["reference", "external"] }))
  ++ (if 50 < (pyWords ar).length then
      [{ content := ar.take 500 ++ "...", importance := Rat.divInt 3 5,
         metadata := [("type", "technical_explanation")],
         tags := ["explanation", "technical"] }]
    else [])

/-- `LearningEngine.learn_from_conversation`: the ordered list of
`store_memory` requests the call issues, and the updated personality
cache.  The requests depend only on the arguments and the cache, never
on the outcome of the stores. -/
def learnFromConversation (cache : String → Option AgentPersonality)
    (a um ar : String) (user : Option String)
    (ctx : List (String × String)) (now : Nat) :
    List WriteReq × (String → Option AgentPersonality) :=
  let convW : WriteReq :=
    { agent := a, content := "User: " ++ um ++ "\nAgent: " ++ ar,
      memory_type := "conversation", user_id := user, importance := Rat.divInt 7 10,
      metadata := ctx, tags := [] }
  let style := analyzeStyle um
  let styleWs : List WriteReq :=
    if truthyOpt user then
      [{ agent := a, content := renderStyle style, memory_type := "user_style",
         user_id := user, importance := Rat.divInt 4 5,
         metadata := [("analysis_type", "communication_style")], tags := [] }]
    else []
  let respW : WriteReq :=
    { agent := a,
      content := renderResponsePattern (if truthyOpt user then some style else none)
        (assessResponseEffectiveness um ar) ((pyWords ar).length)
        (countTechnicalTerms ar),
      memory_type := "response_pattern", user_id := user, importance := Rat.divInt 3 5,
      metadata := [], tags := [] }
  let pw := updateAgentPersonality cache a um user now
  let cache' := fun x => if x = a then some pw.1 else cache x
  let userTerms := extractTechnicalTerms um
  let respTerms := extractTechnicalTerms ar
  let techWs : List WriteReq :=
    if !userTerms.isEmpty || !respTerms.isEmpty then
      [{ agent := a, content := renderTechnical userTerms respTerms (assessTechDepthLE um ar),
         memory_type := "technical_learning", user_id := none, importance := Rat.divInt 4 5,
         metadata := [], tags := [] }]
    else []
  let knowWs : List WriteReq := (extractKnowledgeSnippets ar).map (fun s =>
    { agent := a, content := s.content, memory_type := "knowledge",
      user_id := none, importance := s.importance, metadata := s.metadata,
      tags := s.tags })
  ([convW] ++ styleWs ++ [respW, pw.2] ++ techWs ++ knowWs, cache')

/-- Commit a list of write requests by folding `store_memory`, the
`i`-th call seeing the backend behaviour `envs i`. -/
def commitWrites (cfg : MMConfig) (envs : Nat → Env) (now : Nat) :
    Nat → MMState → List WriteReq → MMState
  | _, st, [] => st
  | i, st, w :: r => commitWrites cfg envs now (i + 1) (storeMemory cfg (envs i) st now w).2.1 r

/-! ### The spec-side retrieval filter and concrete artifacts -/

/-- The retrieval filter as the spec words it: exact `kind` match when a
kind is given, exact `user_id` match when a user is given, importance at
least the threshold. -/
def specMatch (mtype user : Option String) (thr : ℚ) (e : MemoryEntry) : Bool :=
  (match mtype with | none => true | some t => decide (e.memory_type = t))
  && (match user with | none => true | some u => decide (e.user_id = some u))
  && decide (thr ≤ e.importance)

/-- The configuration without AWS backends: every operation lands on the
in-process tier. -/
def localCfg : MMConfig := ⟨false, false, false⟩

/-- The observed deployed configuration: AWS on, the Bedrock branch
disabled, the DynamoDB table initialised. -/
def awsCfg : MMConfig := ⟨true, false, true⟩

/-- All three tiers configured. -/
def fullCfg : MMConfig := ⟨true, true, true⟩

/-- Backends behaving: no call raises. -/
def envOk : Env := ⟨false, false, false, false, []⟩

/-- Every backend call raises. -/
def envFailAll : Env := ⟨true, true, true, true, []⟩

/-- An empty manager state. -/
def stEmpty : MMState := ⟨[], [], fun _ => [], 0⟩

/-- A store request used to exercise the write path. -/
def c1Req : WriteReq :=
  ⟨"a", "hello world", "conversation", some "u", Rat.divInt 1 2, [], []⟩

/-- A stored entry whose content mentions `email` (and hence contains
the keyword `ai` as a substring). -/
def entConvEmail : MemoryEntry :=
  ⟨0, "a", some "u", "I will email you soon", "conversation", Rat.divInt 7 10, 5, [], []⟩

/-- A state holding only `entConvEmail` on the in-process tier. -/
def stEmail : MMState :=
  ⟨[], [], fun a => if a = "a" then [entConvEmail] else [], 1⟩

/-- A `knowledge` entry sitting in the DynamoDB table partition. -/
def entKnow : MemoryEntry := ⟨0, "a", none, "some fact", "knowledge", Rat.divInt 1 2, 0, [], []⟩

/-- A state whose DynamoDB partition holds only `entKnow`. -/
def stDyn : MMState := ⟨[], [entKnow], fun _ => [], 1⟩

/-- Two local entries with distinct timestamps. -/
def entT1 : MemoryEntry := ⟨0, "a", none, "one", "conversation", Rat.divInt 1 2, 1, [], []⟩

/-- Companion entry of `entT1`. -/
def entT2 : MemoryEntry := ⟨1, "a", none, "two", "conversation", Rat.divInt 1 2, 2, [], []⟩

/-- A local map holding `entT1` and `entT2` for agent `a`. -/
def twoEntryMap : String → List MemoryEntry := fun _ => [entT1, entT2]

/-- `_store_locally` on a single agent log: append, keep the last 1000. -/
def storeLocal1 (log : List MemoryEntry) (e : MemoryEntry) : List MemoryEntry :=
  let l := log ++ [e]
  if 1000 < l.length then l.drop (l.length - 1000) else l

/-- The everywhere-empty initial `local_memories`. -/
def emptyLocal : String → List MemoryEntry := fun _ => []

/-- Replay a sequence of writes landing on the in-process tier. -/
def localFold (m : String → List MemoryEntry) (ws : List MemoryEntry) :
    String → List MemoryEntry := ws.foldl storeLocalFun m

/-- An anonymous conversation entry used for the retention scenario. -/
def retEntry (i : Nat) : MemoryEntry :=
  ⟨i, "a", none, "x", "conversation", Rat.divInt 1 2, i, [], []⟩

/-- The empty personality cache. -/
def pCache0 : String → Option AgentPersonality := fun _ => none

/-- A six-word message yielding five extracted phrases. -/
def phraseMsg : String := "aaa bbb ccc ddd eee fff"

/-- Personality after one learning event on `phraseMsg`. -/
def pers1 : AgentPersonality := (updateAgentPersonality pCache0 "a" phraseMsg none 0).1

/-- Cache after one learning event. -/
def pCache1 : String → Option AgentPersonality :=
  fun x => if x = "a" then some pers1 else pCache0 x

/-- Personality after two learning events on `phraseMsg`. -/
def pers2 : AgentPersonality := (updateAgentPersonality pCache1 "a" phraseMsg none 1).1

/-- Cache after two learning events. -/
def pCache2 : String → Option AgentPersonality :=
  fun x => if x = "a" then some pers2 else pCache1 x

/-- Personality after three learning events on `phraseMsg`. -/
def pers3 : AgentPersonality := (updateAgentPersonality pCache2 "a" phraseMsg none 2).1

/-- The user message of the learning scenario. -/
def c5UserMsg : String := "Can you explain machine learning?"

/-- The agent response of the learning scenario, with a fenced block. -/
def c5Resp : String :=
  "Sure! Machine learning (ML) uses data... ```python\nmodel.fit(x,y)\n```"

/-- The fenced code block inside `c5Resp`. -/
def c5Code : String := "```python\nmodel.fit(x,y)\n```"

/-- The write requests issued by the learning scenario. -/
def c5Writes : List WriteReq :=
  (learnFromConversation pCache0 "agentA" c5UserMsg c5Resp (some "u1") [] 0).1

/-- Placeholder request used as the default of list indexing. -/
def defaultWrite : WriteReq := ⟨"", "", "", none, 0, [], []⟩

/-! ### Exception-aware model of the write path

`_store_in_dynamodb` catches only `ClientError`; any other exception
raised by `put_item` (a timeout, a connection error) escapes
`store_memory` to its caller.  The definitions below model that path
explicitly, with `Except.error` as the escaping exception. -/

/-- Outcome of one DynamoDB `put_item` call: success, a raised
`ClientError` (the only exception type `_store_in_dynamodb` catches),
or a raised exception of any other type, which the code does not
catch. -/
inductive DynOutcome where
  | ok
  | clientError
  | uncaughtError
  deriving DecidableEq

/-- An exception escaping `store_memory` to its caller. -/
inductive PyExn where
  | uncaught
  deriving DecidableEq

/-- Backend write behaviour distinguishing the caught DynamoDB failure
from the uncaught one (`Env` collapses both tiers to caught-only). -/
structure EnvE where
  bedrockWriteFails : Bool
  dynamoWrite : DynOutcome

/-- `_store_in_dynamodb` with the full exception semantics: a missing
table or a caught `ClientError` falls back to `_store_locally`; an
exception of any other type escapes. -/
def dynamoStepE (cfg : MMConfig) (env : EnvE) (st : MMState) (e : MemoryEntry) :
    Except PyExn (MMState × List Tier) :=
  if !cfg.tablePresent then Except.ok (localStep st e)
  else match env.dynamoWrite with
    | DynOutcome.ok =>
      Except.ok ({ st with dynamoItems := st.dynamoItems ++ [e] }, [Tier.dynamo])
    | DynOutcome.clientError =>
      Except.ok ((localStep st e).1, Tier.dynamo :: (localStep st e).2)
    | DynOutcome.uncaughtError => Except.error PyExn.uncaught

/-- `_store_in_bedrock_memory` with the full exception semantics: its
own `except Exception` clause catches everything the Bedrock call
raises, but an exception raised by the `_store_in_dynamodb` call inside
that handler escapes. -/
def bedrockStepE (cfg : MMConfig) (env : EnvE) (st : MMState) (e : MemoryEntry) :
    Except PyExn (MMState × List Tier) :=
  if env.bedrockWriteFails then
    (dynamoStepE cfg env st e).map (fun r => (r.1, Tier.bedrock :: r.2))
  else Except.ok ({ st with bedrockEvents := st.bedrockEvents ++ [e] }, [Tier.bedrock])

/-- `store_memory` with the full exception semantics: an uncaught
backend exception propagates, and the caller then receives no id and no
state change (the instance state was not touched on that path). -/
def storeMemoryE (cfg : MMConfig) (env : EnvE) (st : MMState) (now : Nat)
    (w : WriteReq) : Except PyExn (Nat × MMState × List Tier) :=
  let e := mkEntry st now w
  let st1 : MMState := { st with nextId := st.nextId + 1 }
  let r :=
    if cfg.useAws && cfg.useBedrock then bedrockStepE cfg env st1 e
    else if cfg.useAws then dynamoStepE cfg env st1 e
    else Except.ok (localStep st1 e)
  r.map (fun p => (e.id, p))

/-- The agent's local log after an exception-aware store (empty when
the call raised, as the failing path never reaches the local tier). -/
def localAfterE (x : Except PyExn (Nat × MMState × List Tier)) (a : String) :
    List MemoryEntry :=
  match x with
  | Except.ok r => r.2.1.localMem a
  | Except.error _ => []

/-- Replay of `learn_from_conversation`'s store sequence with the full
exception semantics: `learn_from_conversation` wraps no `store_memory`
call in its own handler, so an uncaught exception aborts the remaining
writes, leaving the state as it was before the failing call.  The
second component records whether an exception escaped. -/
def commitWritesE (cfg : MMConfig) (envs : Nat → EnvE) (now : Nat) :
    Nat → MMState → List WriteReq → MMState × Bool
  | _, st, [] => (st, false)
  | i, st, w :: r =>
    match storeMemoryE cfg (envs i) st now w with
    | Except.ok res => commitWritesE cfg envs now (i + 1) res.2.1 r
    | Except.error _ => (st, true)

/-- Backend behaviour where only the first call's `put_item` raises an
uncaught exception and every later call succeeds. -/
def failFirstUncaught : Nat → EnvE :=
  fun i => if i = 0 then ⟨false, DynOutcome.uncaughtError⟩ else ⟨false, DynOutcome.ok⟩

/-! ### IEEE binary64 model of the Python float arithmetic -/

/-- Smallest number of doublings taking `n/d` to at least `2^52`
(fuelled; ample fuel for the heuristic's value range). -/
def upAux : Nat → Nat → Nat → Nat → Nat
  | 0, _, _, acc => acc
  | fuel + 1, n, d, acc =>
    if 2 ^ 52 * d ≤ n then acc else upAux fuel (2 * n) d (acc + 1)

/-- Smallest number of halvings taking `n/d` below `2^53` (fuelled). -/
def downAux : Nat → Nat → Nat → Nat → Nat
  | 0, _, _, acc => acc
  | fuel + 1, n, d, acc =>
    if n < 2 ^ 53 * d then acc else downAux fuel n (2 * d) (acc + 1)

/-- Round a nonnegative rational to the nearest IEEE binary64 value:
scale into `[2^52, 2^53)`, round the 53-bit significand to nearest, half
to even.  Exact for the normal range the heuristic works in. -/
def roundB64 (q : ℚ) : ℚ :=
  if q ≤ 0 then 0
  else
    let n := q.num.toNat
    let d := q.den
    let u := upAux 200 n d 0
    let v := if u = 0 then downAux 200 n d 0 else 0
    let bigN := n * 2 ^ u
    let bigD := d * 2 ^ v
    let m := bigN / bigD
    let r := bigN % bigD
    let m2 := if 2 * r < bigD then m
      else if bigD < 2 * r then m + 1
      else if m % 2 = 0 then m else m + 1
    Rat.divInt (m2 * 2 ^ v) (2 ^ u)

/-- The binary64 value of a decimal literal. -/
def dlit (q : ℚ) : ℚ := roundB64 q

/-- IEEE binary64 addition of two exactly represented values: the exact
rational sum, rounded. -/
def fAdd (a b : ℚ) : ℚ :=
  roundB64 (Rat.divInt (a.num * (b.den : Int) + b.num * (a.den : Int))
    ((a.den : Int) * (b.den : Int)))

/-- IEEE binary64 division: the exact rational quotient, rounded. -/
def fDiv (a b : ℚ) : ℚ :=
  if b = 0 then 0
  else roundB64 (Rat.divInt (a.num * (b.den : Int)) ((a.den : Int) * b.num))

/-- A small natural number as an exact binary64 value. -/
def mkQ (n : Nat) : ℚ := Rat.divInt n 1

/-- `LearningEngine._assess_response_effectiveness` under the program's
actual double-precision arithmetic: the same control flow as
`assessResponseEffectiveness`, with every constant and arithmetic step
rounded to binary64.  The comparisons are exact on the represented
values, as IEEE comparisons are. -/
def assessResponseEffectivenessF (um ar : String) : ℚ :=
  let userLen := (pyWords um).length
  let respLen := (pyWords ar).length
  let ratio : ℚ := fDiv (mkQ respLen) (mkQ (max userLen 1))
  let s1 : ℚ := dlit (Rat.divInt 1 2)
  let s2 := if dlit (Rat.divInt 1 2) ≤ ratio ∧ ratio ≤ dlit (Rat.divInt 2 1)
    then fAdd s1 (dlit (Rat.divInt 1 5)) else s1
  let s3 := if 0 < countTechnicalTerms um ∧ 0 < countTechnicalTerms ar
    then fAdd s2 (dlit (Rat.divInt 1 5)) else s2
  let s4 := if containsSub "?" um
      ∧ (containsSub "yes" (strLower ar) ∨ containsSub "no" (strLower ar))
    then fAdd s3 (dlit (Rat.divInt 1 10)) else s3
  min s4 (dlit (Rat.divInt 1 1))

/-! ### Lemmas about the stable descending sort -/

theorem insertDescBy_perm (key : MemoryEntry → Nat) (e : MemoryEntry)
    (l : List MemoryEntry) : List.Perm (insertDescBy key e l) (e :: l) := by
  induction l with
  | nil => exact List.Perm.refl _
  | cons x xs ih =>
    simp only [insertDescBy]
    split
    · exact (List.Perm.cons x ih).trans (List.Perm.swap e x xs)
    · exact List.Perm.refl _

theorem sortDescBy_perm (key : MemoryEntry → Nat) (l : List MemoryEntry) :
    List.Perm (sortDescBy key l) l := by
  induction l with
  | nil => exact List.Perm.refl _
  | cons x xs ih =>
    simp only [sortDescBy, List.foldr] at *
    exact (insertDescBy_perm key x _).trans (List.Perm.cons x ih)

theorem insertDescBy_sorted (key : MemoryEntry → Nat) (e : MemoryEntry)
    (l : List MemoryEntry) (h : l.Pairwise (fun a b => key b ≤ key a)) :
    (insertDescBy key e l).Pairwise (fun a b => key b ≤ key a) := by
  induction l with
  | nil => simp [insertDescBy]
  | cons x xs ih =>
    rcases List.pairwise_cons.mp h with ⟨hx, hxs⟩
    by_cases hlt : key e < key x
    · simp only [insertDescBy, if_pos hlt]
      refine List.pairwise_cons.mpr ⟨?_, ih hxs⟩
      intro y hy
      rcases List.mem_cons.mp ((insertDescBy_perm key e xs).mem_iff.mp hy) with rfl | hy'
      · omega
      · exact hx y hy'
    · simp only [insertDescBy, if_neg hlt]
      refine List.pairwise_cons.mpr ⟨?_, h⟩
      intro y hy
      rcases List.mem_cons.mp hy with rfl | hy'
      · omega
      · have := hx y hy'; omega

theorem sortDescBy_sorted (key : MemoryEntry → Nat) (l : List MemoryEntry) :
    (sortDescBy key l).Pairwise (fun a b => key b ≤ key a) := by
  induction l with
  | nil => simp [sortDescBy]
  | cons x xs ih => exact insertDescBy_sorted key x _ ih

/-! ### Relating the code's filter to the spec's filter -/

theorem keepEntry_eq_specMatch (mtype user : Option String) (thr : ℚ)
    (e : MemoryEntry) (hm : mtype ≠ some "") (hu : user ≠ some "") :
    keepEntry mtype user thr e = specMatch mtype user thr e := by
  unfold keepEntry specMatch
  cases mtype with
  | none => cases user with
    | none => rfl
    | some u =>
      have : ¬ u = "" := fun h => hu (by simp [h])
      simp [this]
  | some t =>
    have ht : ¬ t = "" := fun h => hm (by simp [h])
    cases user with
    | none => simp [ht]
    | some u =>
      have : ¬ u = "" := fun h => hu (by simp [h])
      simp [ht, this]

/-! ### Helper lemmas on the local store and retrieval -/

theorem storeLocalFun_apply (m : String → List MemoryEntry) (e : MemoryEntry)
    (a : String) :
    storeLocalFun m e a = if a = e.agent_id then storeLocal1 (m e.agent_id) e else m a := rfl

theorem storeLocal1_eq_drop_append (log : List MemoryEntry) (e : MemoryEntry) :
    ∃ k, storeLocal1 log e = log.drop k ++ [e] := by
  unfold storeLocal1
  by_cases h : 1000 < (log ++ [e]).length
  · refine ⟨(log ++ [e]).length - 1000, ?_⟩
    rw [if_pos h, List.drop_append_of_le_length]
    simp only [List.length_append, List.length_cons, List.length_nil] at h ⊢
    omega
  · exact ⟨0, by rw [if_neg h]; simp⟩

theorem mem_storeLocal1_self (log : List MemoryEntry) (e : MemoryEntry) :
    e ∈ storeLocal1 log e := by
  rcases storeLocal1_eq_drop_append log e with ⟨k, hk⟩
  rw [hk]
  exact List.mem_append_right _ (List.mem_singleton_self e)

theorem mem_retrieveLocally_all (m : String → List MemoryEntry) (a : String)
    (e : MemoryEntry) (he : e ∈ m a) (hk : keepEntry none none 0 e = true) :
    e ∈ retrieveLocally m a none none (m a).length 0 := by
  unfold retrieveLocally
  have hF : e ∈ (m a).filter (keepEntry none none 0) := List.mem_filter.mpr ⟨he, hk⟩
  have hperm := sortDescBy_perm (fun x => x.timestamp) ((m a).filter (keepEntry none none 0))
  have hlen : (sortDescBy (fun x => x.timestamp)
      ((m a).filter (keepEntry none none 0))).length ≤ (m a).length := by
    rw [hperm.length_eq]
    exact List.length_filter_le _ _
  rw [List.take_of_length_le hlen]
  exact hperm.mem_iff.mpr hF

/-- Every element returned by the local retrieval passes the filter. -/
theorem retrieveLocally_mem_keep (m : String → List MemoryEntry) (a : String)
    (mtype user : Option String) (limit : Nat) (thr : ℚ) (e : MemoryEntry)
    (he : e ∈ retrieveLocally m a mtype user limit thr) :
    keepEntry mtype user thr e = true := by
  unfold retrieveLocally at he
  have := (sortDescBy_perm (fun x => x.timestamp)
    ((m a).filter (keepEntry mtype user thr))).mem_iff.mp (List.mem_of_mem_take he)
  exact List.of_mem_filter this

/-! ### C3: retrieval semantics -/

/-- C3.  For every stored state of the terminal in-process tier,
retrieval returns exactly the entries of the agent that match the given
kind (when given and a real, nonempty kind), the given user (likewise),
and meet the importance threshold, ordered most-recent-first by
timestamp and truncated to `limit`: every returned entry matches, the
result is sorted by descending timestamp, its length is `limit` capped
by the number of matching entries, and when no truncation occurs it is a
permutation of the matching entries.  (The DynamoDB tier does not obey
this claim; see the counterexample.) -/
theorem retrieve_filters_sorts_truncates_c3 (m : String → List MemoryEntry)
    (a : String) (mtype user : Option String) (limit : Nat) (thr : ℚ)
    (hm : mtype ≠ some "") (hu : user ≠ some "") :
    (∀ e ∈ retrieveLocally m a mtype user limit thr, specMatch mtype user thr e = true)
    ∧ (retrieveLocally m a mtype user limit thr).Pairwise
        (fun x y => y.timestamp ≤ x.timestamp)
    ∧ (retrieveLocally m a mtype user limit thr).length
        = min limit ((m a).filter (specMatch mtype user thr)).length
    ∧ (((m a).filter (specMatch mtype user thr)).length ≤ limit →
        List.Perm (retrieveLocally m a mtype user limit thr)
          ((m a).filter (specMatch mtype user thr))) := by
  have hfil : (m a).filter (keepEntry mtype user thr)
      = (m a).filter (specMatch mtype user thr) :=
    List.filter_congr (fun e _ => keepEntry_eq_specMatch mtype user thr e hm hu)
  have hperm := sortDescBy_perm (fun x => x.timestamp)
    ((m a).filter (keepEntry mtype user thr))
  refine ⟨?_, ?_, ?_, ?_⟩
  · intro e he
    have := retrieveLocally_mem_keep m a mtype user limit thr e he
    rwa [keepEntry_eq_specMatch mtype user thr e hm hu] at this
  · exact (sortDescBy_sorted (fun x => x.timestamp) _).sublist
      (List.take_sublist _ _)
  · unfold retrieveLocally
    rw [List.length_take, hperm.length_eq, hfil]
  · intro hle
    unfold retrieveLocally
    rw [hfil] at hperm ⊢
    have : (sortDescBy (fun x => x.timestamp)
        ((m a).filter (specMatch mtype user thr))).length ≤ limit := by
      rw [hperm.length_eq]; exact hle
    rw [List.take_of_length_le this]
    exact hperm

/-- Witness for C3 at a concrete two-entry store. -/
theorem retrieve_filters_sorts_truncates_c3_witness :
    ((some "conversation" : Option String) ≠ some "" ∧ (none : Option String) ≠ some "")
    ∧ (retrieveLocally twoEntryMap "a" (some "conversation") none 50 0).length
        = min 50 ((twoEntryMap "a").filter (specMatch (some "conversation") none 0)).length :=
  ⟨⟨by decide, by decide⟩,
    (retrieve_filters_sorts_truncates_c3 twoEntryMap "a" (some "conversation") none 50 0
      (by decide) (by decide)).2.2.1⟩

/-- Counterexample to C3 as stated over the whole `retrieve` dispatch:
in the deployed AWS configuration with a healthy DynamoDB tier, a
retrieval asking for kind `conversation` returns an entry of kind
`knowledge`, because the DynamoDB query filters only by agent and
importance. -/
theorem retrieve_dynamo_ignores_kind_c3_counterexample :
    retrieveMemories awsCfg envOk stDyn "a" (some "conversation") none 50 0 = [entKnow]
    ∧ entKnow.memory_type ≠ "conversation" := by
  constructor
  · decide
  · decide

/-! ### C4: retention of the terminal in-process tier -/

theorem storeLocal1_step (ws : List MemoryEntry) (e : MemoryEntry) :
    storeLocal1 (ws.drop (ws.length - 1000)) e
      = (ws ++ [e]).drop ((ws ++ [e]).length - 1000) := by
  by_cases h : ws.length < 1000
  · have h0 : ws.length - 1000 = 0 := by omega
    have h1 : (ws ++ [e]).length - 1000 = 0 := by
      simp only [List.length_append, List.length_cons, List.length_nil]; omega
    rw [h0, h1, List.drop_zero, List.drop_zero]
    unfold storeLocal1
    rw [if_neg]
    simp only [List.length_append, List.length_cons, List.length_nil]
    omega
  · have hge : 1000 ≤ ws.length := by omega
    have hprev : (ws.drop (ws.length - 1000)).length = 1000 := by
      rw [List.length_drop]; omega
    have hl2 : (ws.drop (ws.length - 1000) ++ [e]).length = 1001 := by
      simp [hprev]
    have hl3 : (ws ++ [e]).length = ws.length + 1 := by simp
    unfold storeLocal1
    rw [if_pos (by omega)]
    rw [show (ws.drop (ws.length - 1000) ++ [e]).length - 1000 = 1 by omega]
    rw [List.drop_append_of_le_length (by omega)]
    rw [List.drop_drop]
    rw [show (ws ++ [e]).length - 1000 = ws.length + 1 - 1000 by omega]
    rw [List.drop_append_of_le_length (by omega)]
    rw [show ws.length - 1000 + 1 = ws.length + 1 - 1000 by omega]

theorem foldl_storeLocal1_eq (ws : List MemoryEntry) :
    ws.foldl storeLocal1 [] = ws.drop (ws.length - 1000) := by
  induction ws using List.reverseRecOn with
  | nil => simp
  | append_singleton ws e ih =>
    rw [List.foldl_append, ih, List.foldl_cons, List.foldl_nil]
    exact storeLocal1_step ws e

theorem localFold_apply (ws : List MemoryEntry) (m : String → List MemoryEntry)
    (a : String) :
    localFold m ws a
      = (ws.filter (fun e => decide (e.agent_id = a))).foldl storeLocal1 (m a) := by
  induction ws generalizing m with
  | nil => rfl
  | cons e ws ih =>
    show (ws.foldl storeLocalFun (storeLocalFun m e)) a = _
    rw [show (ws.foldl storeLocalFun (storeLocalFun m e)) a
        = localFold (storeLocalFun m e) ws a from rfl, ih]
    by_cases h : e.agent_id = a
    · rw [List.filter_cons_of_pos (by simp [h]), List.foldl_cons]
      congr 1
      rw [storeLocalFun_apply, if_pos h.symm, h]
    · rw [List.filter_cons_of_neg (by simp [h])]
      congr 1
      rw [storeLocalFun_apply, if_neg (fun hh => h hh.symm)]

/-- C4.  After any sequence of writes landing on the terminal in-process
tier (starting from the empty store), each agent's log is exactly the
trailing block of that agent's writes beyond the first `length − 1000`:
it therefore holds at most 1000 entries, always the most recently
written ones (a suffix of the write sequence, oldest dropped first), and
a sequence of 1005 writes for one agent leaves exactly 1000. -/
theorem local_retention_c4 (ws : List MemoryEntry) (a : String) :
    localFold emptyLocal ws a
      = (ws.filter (fun e => decide (e.agent_id = a))).drop
          ((ws.filter (fun e => decide (e.agent_id = a))).length - 1000)
    ∧ (localFold emptyLocal ws a).length
        = min (ws.filter (fun e => decide (e.agent_id = a))).length 1000
    ∧ ((ws.filter (fun e => decide (e.agent_id = a))).length = 1005 →
        (localFold emptyLocal ws a).length = 1000)
    ∧ (localFold emptyLocal ws a).IsSuffix
        (ws.filter (fun e => decide (e.agent_id = a))) := by
  have h1 : localFold emptyLocal ws a
      = (ws.filter (fun e => decide (e.agent_id = a))).drop
          ((ws.filter (fun e => decide (e.agent_id = a))).length - 1000) := by
    rw [localFold_apply]
    exact foldl_storeLocal1_eq _
  refine ⟨h1, ?_, ?_, ?_⟩
  · rw [h1, List.length_drop]; omega
  · intro h; rw [h1, List.length_drop, h]
  · rw [h1]; exact List.drop_suffix _ _

/-- Witness for C4: 1005 writes for agent `a` leave exactly 1000. -/
theorem local_retention_c4_witness :
    (((List.range 1005).map retEntry).filter (fun e => decide (e.agent_id = "a"))).length = 1005
    ∧ (localFold emptyLocal ((List.range 1005).map retEntry) "a").length = 1000 := by
  have hf : ((List.range 1005).map retEntry).filter (fun e => decide (e.agent_id = "a"))
      = (List.range 1005).map retEntry := by
    apply List.filter_eq_self.mpr
    intro e he
    rcases List.mem_map.mp he with ⟨i, _, rfl⟩
    simp [retEntry]
  have hl : (((List.range 1005).map retEntry).filter
      (fun e => decide (e.agent_id = "a"))).length = 1005 := by
    rw [hf]; simp
  exact ⟨hl, (local_retention_c4 ((List.range 1005).map retEntry) "a").2.2.1 hl⟩

/-! ### C1: the write path's failure semantics -/

/-- The flag-based store is the caught-exception restriction of the
exception-aware one: when every DynamoDB failure is of the caught
`ClientError` kind, `storeMemoryE` returns exactly what `storeMemory`
computes — the flag model is sound for runs without uncaught
exceptions. -/
theorem storeMemoryE_restricts (cfg : MMConfig) (env : Env) (st : MMState)
    (now : Nat) (w : WriteReq) :
    storeMemoryE cfg
      ⟨env.bedrockWriteFails,
        if env.dynamoWriteFails then DynOutcome.clientError else DynOutcome.ok⟩
      st now w = Except.ok (storeMemory cfg env st now w) := by
  obtain ⟨ua, ub, tp⟩ := cfg
  obtain ⟨bw, dw, br, dr, resp⟩ := env
  cases ua <;> cases ub <;> cases tp <;> cases bw <;> cases dw <;> rfl

/-- C1.  The claim (and §4.1/§5/§7 of the spec) requires every tier
failure to fall through so that no write failure surfaces and an id is
always returned; the code does not satisfy it: `_store_in_dynamodb`
catches only `ClientError`, so a DynamoDB write raising any other
exception — a timeout, a connection error — escapes `store_memory`.
Evaluated at the failing input: in the deployed AWS configuration, and
with tier 1 and tier 2 both raising (tier 2 with an uncaught type), the
call returns the escaped exception instead of an id and nothing reaches
the in-process tier; by contrast a caught `ClientError` (last conjunct)
falls through and lands the entry locally as the claim describes. -/
theorem store_uncaught_exception_c1 :
    storeMemoryE awsCfg ⟨false, DynOutcome.uncaughtError⟩ stEmpty 0 c1Req
      = Except.error PyExn.uncaught
    ∧ storeMemoryE fullCfg ⟨true, DynOutcome.uncaughtError⟩ stEmpty 0 c1Req
      = Except.error PyExn.uncaught
    ∧ localAfterE (storeMemoryE fullCfg ⟨true, DynOutcome.clientError⟩ stEmpty 0 c1Req) "a"
      = [mkEntry stEmpty 0 c1Req] :=
  ⟨rfl, rfl, by decide⟩

/-! ### C2: store / retrieve round trip -/

/-- C2.  An entry written through `store` (here in the terminal-tier
configuration) and then the sole match of a `retrieve` for the same
kind and user comes back alone and intact: identical `content`, `kind`,
`tags` and `importance`, carrying the id returned by the store and the
write-time timestamp. -/
theorem round_trip_c2 (env : Env) (st : MMState) (now : Nat)
    (a content kind u : String) (imp : ℚ) (meta : List (String × String))
    (tags : List String) (limit : Nat)
    (hk : kind ≠ "") (hu : u ≠ "") (himp : 0 ≤ imp) (hlim : 1 ≤ limit)
    (hsole : ∀ x ∈ st.localMem a, specMatch (some kind) (some u) 0 x = false) :
    retrieveLocally
        (storeMemory localCfg env st now ⟨a, content, kind, some u, imp, meta, tags⟩).2.1.localMem
        a (some kind) (some u) limit 0
      = [mkEntry st now ⟨a, content, kind, some u, imp, meta, tags⟩]
    ∧ (mkEntry st now ⟨a, content, kind, some u, imp, meta, tags⟩).content = content
    ∧ (mkEntry st now ⟨a, content, kind, some u, imp, meta, tags⟩).memory_type = kind
    ∧ (mkEntry st now ⟨a, content, kind, some u, imp, meta, tags⟩).tags = tags
    ∧ (mkEntry st now ⟨a, content, kind, some u, imp, meta, tags⟩).importance = imp
    ∧ (mkEntry st now ⟨a, content, kind, some u, imp, meta, tags⟩).id
        = (storeMemory localCfg env st now ⟨a, content, kind, some u, imp, meta, tags⟩).1
    ∧ (mkEntry st now ⟨a, content, kind, some u, imp, meta, tags⟩).timestamp = now := by
  set w : WriteReq := ⟨a, content, kind, some u, imp, meta, tags⟩ with hw
  set e : MemoryEntry := mkEntry st now w with he
  have hloc : (storeMemory localCfg env st now w).2.1.localMem
      = storeLocalFun st.localMem e := rfl
  have hagent : e.agent_id = a := rfl
  have hlog : (storeMemory localCfg env st now w).2.1.localMem a
      = storeLocal1 (st.localMem a) e := by
    rw [hloc, storeLocalFun_apply, hagent, if_pos rfl]
  rcases storeLocal1_eq_drop_append (st.localMem a) e with ⟨kdrop, hkd⟩
  have hkeep : keepEntry (some kind) (some u) 0 e = true := by
    have h1 : (if kind = "" then true else decide (e.memory_type = kind)) = true := by
      rw [if_neg hk]; exact decide_eq_true rfl
    have h2 : (if u = "" then true else decide (e.user_id = some u)) = true := by
      rw [if_neg hu]; exact decide_eq_true rfl
    show ((if kind = "" then true else decide (e.memory_type = kind))
      && (if u = "" then true else decide (e.user_id = some u))
      && decide ((0:ℚ) ≤ e.importance)) = true
    rw [h1, h2]
    simp only [Bool.true_and, Bool.and_true]
    exact decide_eq_true himp
  have hfil : ((storeMemory localCfg env st now w).2.1.localMem a).filter
      (keepEntry (some kind) (some u) 0) = [e] := by
    rw [hlog, hkd, List.filter_append]
    have hnil : ((st.localMem a).drop kdrop).filter (keepEntry (some kind) (some u) 0) = [] := by
      apply List.filter_eq_nil_iff.mpr
      intro x hx
      have hxmem : x ∈ st.localMem a := List.mem_of_mem_drop hx
      rw [keepEntry_eq_specMatch (some kind) (some u) 0 x
        (by simpa using hk) (by simpa using hu)]
      simp [hsole x hxmem]
    rw [hnil, List.nil_append, List.filter_cons_of_pos hkeep]
    rfl
  refine ⟨?_, rfl, rfl, rfl, rfl, rfl, rfl⟩
  unfold retrieveLocally
  rw [hfil]
  have hsort : sortDescBy (fun x => x.timestamp) [e] = [e] := rfl
  rw [hsort]
  exact List.take_of_length_le (by simpa using hlim)

/-- Witness for C2 at a concrete store and retrieval. -/
theorem round_trip_c2_witness :
    retrieveLocally
        (storeMemory localCfg envOk stEmpty 7
          ⟨"a", "hi there", "conversation", some "u1", Rat.divInt 1 2, [], ["t"]⟩).2.1.localMem
        "a" (some "conversation") (some "u1") 50 0
      = [mkEntry stEmpty 7 ⟨"a", "hi there", "conversation", some "u1", Rat.divInt 1 2, [], ["t"]⟩] :=
  (round_trip_c2 envOk stEmpty 7 "a" "hi there" "conversation" "u1" (Rat.divInt 1 2) [] ["t"] 50
    (by decide) (by decide) (by decide) (by decide)
    (by intro x hx; simp [stEmpty] at hx)).1

/-! ### C10: current-topic extraction -/

theorem find?_first {α : Type} (p : α → Bool) :
    ∀ (l : List α) (k : α), l.find? p = some k →
      p k = true ∧ ∃ l1 l2, l = l1 ++ k :: l2 ∧ ∀ x ∈ l1, p x = false := by
  intro l
  induction l with
  | nil => intro k h; simp [List.find?] at h
  | cons a t ih =>
    intro k h
    cases hpa : p a with
    | true =>
      rw [List.find?_cons_of_pos _ hpa] at h
      obtain rfl : a = k := by injection h
      exact ⟨hpa, [], t, rfl, by intro x hx; simp at hx⟩
    | false =>
      rw [List.find?_cons_of_neg _ (by simp [hpa])] at h
      rcases ih k h with ⟨hk, l1, l2, hdec, hl1⟩
      refine ⟨hk, a :: l1, l2, by rw [hdec]; rfl, ?_⟩
      intro x hx
      rcases List.mem_cons.mp hx with rfl | hx
      · exact hpa
      · exact hl1 x hx

theorem keepEntry_some_type {t : String} (ht : t ≠ "") (user : Option String)
    (thr : ℚ) (e : MemoryEntry) (h : keepEntry (some t) user thr e = true) :
    e.memory_type = t := by
  cases user with
  | none =>
    have h' : ((if t = "" then true else decide (e.memory_type = t)) && true
        && decide (thr ≤ e.importance)) = true := h
    simp only [Bool.and_eq_true] at h'
    have h1 := h'.1.1
    rw [if_neg ht] at h1
    exact of_decide_eq_true h1
  | some u =>
    have h' : ((if t = "" then true else decide (e.memory_type = t))
        && (if u = "" then true else decide (e.user_id = some u))
        && decide (thr ≤ e.importance)) = true := h
    simp only [Bool.and_eq_true] at h'
    have h1 := h'.1.1
    rw [if_neg ht] at h1
    exact of_decide_eq_true h1

theorem topic_eq_find (env : Env) (st : MMState) (a : String)
    (user : Option String) (cl kl : Nat)
    (h : (getContextWindow localCfg env st a user cl kl).recent_conversations ≠ []) :
    (getContextWindow localCfg env st a user cl kl).current_topic
      = topicKeywords.find? (fun k =>
          containsSub (strLower k)
            (strLower (joinedRecent (getContextWindow localCfg env st a user cl kl)))) := by
  show extractCurrentTopic (getContextWindow localCfg env st a user cl kl).recent_conversations = _
  unfold extractCurrentTopic
  rw [if_neg (fun hh => h (List.isEmpty_iff.mp hh))]
  rfl

theorem topic_eq_none_of_empty (env : Env) (st : MMState) (a : String)
    (user : Option String) (cl kl : Nat)
    (h : (getContextWindow localCfg env st a user cl kl).recent_conversations = []) :
    (getContextWindow localCfg env st a user cl kl).current_topic = none := by
  show extractCurrentTopic (getContextWindow localCfg env st a user cl kl).recent_conversations = _
  unfold extractCurrentTopic
  rw [if_pos (List.isEmpty_iff.mpr h)]

/-- C10.  In the terminal-tier configuration, the context window's
conversations all have kind `conversation` and come most-recent-first,
and `current_topic` is `none` exactly when there is no recent
conversation or no keyword of the fixed ordered list occurs
(case-insensitively, as a substring — not whole-word) in the joined
contents of the three most recent ones; when it is `some k`, the keyword
`k` occurs there and no keyword earlier in the fixed order does. -/
theorem context_topic_c10 (env : Env) (st : MMState) (a : String)
    (user : Option String) (cl kl : Nat) :
    (∀ e ∈ (getContextWindow localCfg env st a user cl kl).recent_conversations,
        e.memory_type = "conversation")
    ∧ (getContextWindow localCfg env st a user cl kl).recent_conversations.Pairwise
        (fun x y => y.timestamp ≤ x.timestamp)
    ∧ ((getContextWindow localCfg env st a user cl kl).current_topic = none ↔
        ((getContextWindow localCfg env st a user cl kl).recent_conversations = []
          ∨ ∀ k ∈ topicKeywords,
              containsSub (strLower k)
                (strLower (joinedRecent (getContextWindow localCfg env st a user cl kl))) = false))
    ∧ (∀ k, (getContextWindow localCfg env st a user cl kl).current_topic = some k →
        containsSub (strLower k)
            (strLower (joinedRecent (getContextWindow localCfg env st a user cl kl))) = true
        ∧ ∃ l1 l2, topicKeywords = l1 ++ k :: l2
            ∧ ∀ k' ∈ l1,
                containsSub (strLower k')
                  (strLower (joinedRecent (getContextWindow localCfg env st a user cl kl))) = false) := by
  have hrecent : (getContextWindow localCfg env st a user cl kl).recent_conversations
      = retrieveLocally st.localMem a (some "conversation") user cl 0 := rfl
  refine ⟨?_, ?_, ?_, ?_⟩
  · intro e he
    rw [hrecent] at he
    exact keepEntry_some_type (by decide) user 0 e
      (retrieveLocally_mem_keep st.localMem a (some "conversation") user cl 0 e he)
  · rw [hrecent]
    exact (sortDescBy_sorted (fun x => x.timestamp) _).sublist (List.take_sublist _ _)
  · by_cases hemp : (getContextWindow localCfg env st a user cl kl).recent_conversations = []
    · exact iff_of_true (topic_eq_none_of_empty env st a user cl kl hemp) (Or.inl hemp)
    · rw [topic_eq_find env st a user cl kl hemp]
      constructor
      · intro hnone
        refine Or.inr ?_
        intro k hk
        have h2 := List.find?_eq_none.mp hnone k hk
        cases hb : containsSub (strLower k)
            (strLower (joinedRecent (getContextWindow localCfg env st a user cl kl))) with
        | false => rfl
        | true => exact absurd hb h2
      · intro hall
        rcases hall with hall | hall
        · exact absurd hall hemp
        · apply List.find?_eq_none.mpr
          intro k hk hcontra
          rw [hall k hk] at hcontra
          exact Bool.false_ne_true hcontra
  · intro k hk
    by_cases hemp : (getContextWindow localCfg env st a user cl kl).recent_conversations = []
    · rw [topic_eq_none_of_empty env st a user cl kl hemp] at hk
      exact absurd hk (by simp)
    · rw [topic_eq_find env st a user cl kl hemp] at hk
      rcases find?_first _ _ _ hk with ⟨hpk, l1, l2, hdec, hl1⟩
      exact ⟨hpk, l1, l2, hdec, hl1⟩

/-- Witness for C10: a content containing `email` yields topic `ai`. -/
theorem context_topic_c10_witness :
    containsSub (strLower "ai")
        (strLower (joinedRecent (getContextWindow localCfg envOk stEmail "a" (some "u") 10 5))) = true
    ∧ ∃ l1 l2, topicKeywords = l1 ++ "ai" :: l2
        ∧ ∀ k' ∈ l1,
            containsSub (strLower k')
              (strLower (joinedRecent (getContextWindow localCfg envOk stEmail "a" (some "u") 10 5))) = false :=
  (context_topic_c10 envOk stEmail "a" (some "u") 10 5).2.2.2 "ai" (by decide)

/-! ### C7: formality score -/

/-- C7.  For every text, the formality score of `analyze` is the number
of formal-pattern matches divided by the total number of formal and
casual matches, and it is exactly `0.5` whenever both counts are zero. -/
theorem formality_score_c7 (text : String) :
    (formalCount (strLower text) + casualCount (strLower text) = 0 →
      (analyzeStyle text).formality_score = 1/2)
    ∧ (formalCount (strLower text) + casualCount (strLower text) ≠ 0 →
      (analyzeStyle text).formality_score
        = (formalCount (strLower text) : ℚ)
          / ((formalCount (strLower text) : ℚ) + (casualCount (strLower text) : ℚ))) := by
  have hs : (analyzeStyle text).formality_score = analyzeFormality (strLower text) := rfl
  constructor
  · intro h0
    rw [hs]
    unfold analyzeFormality
    rw [if_pos h0]
    norm_num [Rat.divInt_eq_div]
  · intro h0
    rw [hs]
    unfold analyzeFormality
    rw [if_neg h0]

/-- Witness for C7: a text with no formal and no casual matches scores
exactly one half. -/
theorem formality_score_c7_witness :
    (formalCount (strLower "xyz zz qq") + casualCount (strLower "xyz zz qq") = 0)
    ∧ (analyzeStyle "xyz zz qq").formality_score = 1/2 :=
  ⟨by decide, (formality_score_c7 "xyz zz qq").1 (by decide)⟩

/-! ### C8: communication tone -/

/-- C8.  For every text, `analyze` reports tone `technical` exactly when
the technical-indicator count strictly exceeds both the friendly and the
professional counts; otherwise `professional` exactly when the
professional count strictly exceeds the friendly count; otherwise
`friendly`. -/
theorem communication_tone_c8 (text : String) :
    ((analyzeStyle text).communication_tone = "technical" ↔
      (indicatorCount friendlyIndicators (strLower text)
          < indicatorCount technicalIndicators (strLower text)
        ∧ indicatorCount professionalIndicators (strLower text)
          < indicatorCount technicalIndicators (strLower text)))
    ∧ ((analyzeStyle text).communication_tone = "professional" ↔
      (¬(indicatorCount friendlyIndicators (strLower text)
            < indicatorCount technicalIndicators (strLower text)
          ∧ indicatorCount professionalIndicators (strLower text)
            < indicatorCount technicalIndicators (strLower text))
        ∧ indicatorCount friendlyIndicators (strLower text)
            < indicatorCount professionalIndicators (strLower text)))
    ∧ ((analyzeStyle text).communication_tone = "friendly" ↔
      (¬(indicatorCount friendlyIndicators (strLower text)
            < indicatorCount technicalIndicators (strLower text)
          ∧ indicatorCount professionalIndicators (strLower text)
            < indicatorCount technicalIndicators (strLower text))
        ∧ ¬(indicatorCount friendlyIndicators (strLower text)
            < indicatorCount professionalIndicators (strLower text)))) := by
  have htone : (analyzeStyle text).communication_tone
      = (if (indicatorCount friendlyIndicators (strLower text)
              < indicatorCount technicalIndicators (strLower text)
            ∧ indicatorCount professionalIndicators (strLower text)
              < indicatorCount technicalIndicators (strLower text))
        then "technical"
        else if indicatorCount friendlyIndicators (strLower text)
            < indicatorCount professionalIndicators (strLower text)
          then "professional" else "friendly") := rfl
  rw [htone]
  by_cases h1 : (indicatorCount friendlyIndicators (strLower text)
      < indicatorCount technicalIndicators (strLower text)
    ∧ indicatorCount professionalIndicators (strLower text)
      < indicatorCount technicalIndicators (strLower text))
  · rw [if_pos h1]
    exact ⟨iff_of_true rfl h1,
      iff_of_false (by decide) (fun hh => hh.1 h1),
      iff_of_false (by decide) (fun hh => hh.1 h1)⟩
  · rw [if_neg h1]
    by_cases h2 : indicatorCount friendlyIndicators (strLower text)
        < indicatorCount professionalIndicators (strLower text)
    · rw [if_pos h2]
      exact ⟨iff_of_false (by decide) (fun hh => h1 hh),
        iff_of_true rfl ⟨h1, h2⟩,
        iff_of_false (by decide) (fun hh => hh.2 h2)⟩
    · rw [if_neg h2]
      exact ⟨iff_of_false (by decide) (fun hh => h1 hh),
        iff_of_false (by decide) (fun hh => h2 hh.2),
        iff_of_true rfl ⟨h1, h2⟩⟩

/-! ### C6: response-effectiveness heuristic -/

/-- C6, amended.  Under exact rational arithmetic the heuristic is the
claimed sum — base `0.5`, plus `0.2` when the response-to-user
word-count ratio lies within `[0.5, 2.0]`, plus `0.2` when both
messages contain a technical term, plus `0.1` when the user message
contains `?` and the response contains `yes` or `no` — capped at `1.0`,
and the 4-word/6-word all-bonus scenario sums to exactly `1`.  Under
the program's double-precision arithmetic the cap still holds, but that
scenario evaluates to `0.9999999999999999 = (2^53 - 1)/2^53`, one unit
in the last place below `1.0` — not exactly `1.0`. -/
theorem effectiveness_c6_amended (um ar : String) :
    (assessResponseEffectiveness um ar
      = min ((1:ℚ)/2
          + (if Rat.divInt 1 2 ≤ ((pyWords ar).length : ℚ) / ((max (pyWords um).length 1 : Nat) : ℚ)
                ∧ ((pyWords ar).length : ℚ) / ((max (pyWords um).length 1 : Nat) : ℚ) ≤ 2
             then (1:ℚ)/5 else 0)
          + (if 0 < countTechnicalTerms um ∧ 0 < countTechnicalTerms ar then (1:ℚ)/5 else 0)
          + (if containsSub "?" um ∧ (containsSub "yes" (strLower ar) ∨ containsSub "no" (strLower ar))
             then (1:ℚ)/10 else 0)) 1)
    ∧ assessResponseEffectiveness um ar ≤ 1
    ∧ assessResponseEffectivenessF um ar ≤ 1
    ∧ ((pyWords um).length = 4 → (pyWords ar).length = 6 →
        0 < countTechnicalTerms um → 0 < countTechnicalTerms ar →
        containsSub "?" um = true → containsSub "yes" (strLower ar) = true →
        assessResponseEffectivenessF um ar = Rat.divInt 9007199254740991 9007199254740992
        ∧ assessResponseEffectiveness um ar = 1) := by
  have key : ∀ (b1 b2 b3 : Prop) (_ : Decidable b1) (_ : Decidable b2) (_ : Decidable b3),
      (min (if b3 then (if b2 then (if b1 then Rat.divInt 1 2 + Rat.divInt 1 5 else Rat.divInt 1 2) + Rat.divInt 1 5
                        else (if b1 then Rat.divInt 1 2 + Rat.divInt 1 5 else Rat.divInt 1 2)) + Rat.divInt 1 10
            else (if b2 then (if b1 then Rat.divInt 1 2 + Rat.divInt 1 5 else Rat.divInt 1 2) + Rat.divInt 1 5
                        else (if b1 then Rat.divInt 1 2 + Rat.divInt 1 5 else Rat.divInt 1 2))) 1)
      = min ((1:ℚ)/2 + (if b1 then (1:ℚ)/5 else 0) + (if b2 then (1:ℚ)/5 else 0)
          + (if b3 then (1:ℚ)/10 else 0)) 1 := by
    intro b1 b2 b3 d1 d2 d3
    by_cases h1 : b1 <;> by_cases h2 : b2 <;> by_cases h3 : b3 <;>
      simp only [h1, h2, h3, if_true, if_false] <;> norm_num [Rat.divInt_eq_div]
  have keyF : ∀ (b1 b2 b3 : Prop) (_ : Decidable b1) (_ : Decidable b2) (_ : Decidable b3),
      b1 → b2 → b3 →
      (min (if b3 then fAdd (if b2 then fAdd (if b1 then fAdd (dlit (Rat.divInt 1 2)) (dlit (Rat.divInt 1 5)) else dlit (Rat.divInt 1 2)) (dlit (Rat.divInt 1 5))
                    else (if b1 then fAdd (dlit (Rat.divInt 1 2)) (dlit (Rat.divInt 1 5)) else dlit (Rat.divInt 1 2))) (dlit (Rat.divInt 1 10))
            else (if b2 then fAdd (if b1 then fAdd (dlit (Rat.divInt 1 2)) (dlit (Rat.divInt 1 5)) else dlit (Rat.divInt 1 2)) (dlit (Rat.divInt 1 5))
                    else (if b1 then fAdd (dlit (Rat.divInt 1 2)) (dlit (Rat.divInt 1 5)) else dlit (Rat.divInt 1 2))))
        (dlit (Rat.divInt 1 1)))
      = Rat.divInt 9007199254740991 9007199254740992 := by
    intro b1 b2 b3 d1 d2 d3 hb1 hb2 hb3
    rw [if_pos hb3, if_pos hb2, if_pos hb1]
    decide
  have conj1 : assessResponseEffectiveness um ar
      = min ((1:ℚ)/2
          + (if Rat.divInt 1 2 ≤ ((pyWords ar).length : ℚ) / ((max (pyWords um).length 1 : Nat) : ℚ)
                ∧ ((pyWords ar).length : ℚ) / ((max (pyWords um).length 1 : Nat) : ℚ) ≤ 2
             then (1:ℚ)/5 else 0)
          + (if 0 < countTechnicalTerms um ∧ 0 < countTechnicalTerms ar then (1:ℚ)/5 else 0)
          + (if containsSub "?" um ∧ (containsSub "yes" (strLower ar) ∨ containsSub "no" (strLower ar))
             then (1:ℚ)/10 else 0)) 1 := by
    exact key _ _ _ inferInstance inferInstance inferInstance
  refine ⟨conj1, ?_, ?_, ?_⟩
  · rw [conj1]; exact min_le_right _ _
  · have hcap : assessResponseEffectivenessF um ar ≤ dlit (Rat.divInt 1 1) :=
      min_le_right _ _
    exact hcap.trans (le_of_eq (by decide))
  · intro h4 h6 htu htr hq hy
    constructor
    · have hc1 : dlit (Rat.divInt 1 2)
            ≤ fDiv (mkQ (pyWords ar).length) (mkQ (max (pyWords um).length 1))
          ∧ fDiv (mkQ (pyWords ar).length) (mkQ (max (pyWords um).length 1))
            ≤ dlit (Rat.divInt 2 1) := by
        rw [h4, h6]
        exact ⟨by decide, by decide⟩
      exact keyF _ _ _ inferInstance inferInstance inferInstance
        hc1 ⟨htu, htr⟩ ⟨hq, Or.inl hy⟩
    · rw [conj1, h4, h6]
      have hmax : ((max 4 1 : Nat) : ℚ) = 4 := by norm_num
      rw [hmax]
      rw [if_pos (by norm_num [Rat.divInt_eq_div] :
        Rat.divInt 1 2 ≤ ((6:Nat) : ℚ) / 4 ∧ ((6:Nat) : ℚ) / 4 ≤ 2)]
      rw [if_pos ⟨htu, htr⟩]
      rw [if_pos ⟨hq, Or.inl hy⟩]
      norm_num

/-- Witness for C6 at the spec's scenario: exact arithmetic gives 1,
the program's double arithmetic gives one ulp less. -/
theorem effectiveness_c6_amended_witness :
    ((pyWords "is the api good?").length = 4
      ∧ (pyWords "yes the api is quite good").length = 6)
    ∧ assessResponseEffectivenessF "is the api good?" "yes the api is quite good"
        = Rat.divInt 9007199254740991 9007199254740992
    ∧ assessResponseEffectiveness "is the api good?" "yes the api is quite good" = 1 :=
  ⟨⟨by decide, by decide⟩,
    (effectiveness_c6_amended "is the api good?" "yes the api is quite good").2.2.2
      (by decide) (by decide) (by decide) (by decide) (by decide) (by decide)⟩

/-- Counterexample to C6's exactness sentence as stated: a 4-word user
message and a 6-word response satisfying every bonus condition, on
which the double-precision computation `min(0.5+0.2+0.2+0.1, 1.0)`
yields `(2^53 - 1)/2^53 = 0.9999999999999999`, which is not `1`. -/
theorem effectiveness_c6_counterexample :
    (pyWords "is the api good?").length = 4
    ∧ (pyWords "yes the api is quite good").length = 6
    ∧ 0 < countTechnicalTerms "is the api good?"
    ∧ 0 < countTechnicalTerms "yes the api is quite good"
    ∧ containsSub "?" "is the api good?" = true
    ∧ containsSub "yes" (strLower "yes the api is quite good") = true
    ∧ assessResponseEffectivenessF "is the api good?" "yes the api is quite good"
        = Rat.divInt 9007199254740991 9007199254740992
    ∧ assessResponseEffectivenessF "is the api good?" "yes the api is quite good" ≠ 1 := by
  exact ⟨by decide, by decide, by decide, by decide, by decide, by decide,
    by decide, by decide⟩

/-! ### C9: learned phrases -/

/-- C9, amended.  Each learning event extends the cached personality's
`learned_phrases` with up to 5 adjacent-word-pair phrases (each longer
than 5 characters) extracted from the user message, appended after the
existing ones; the persisted `personality_update` snapshot carries the
most recent 10 phrases at importance 0.9.  (The cached list itself is
unbounded — see the counterexample.) -/
theorem learned_phrases_c9_amended (cache : String → Option AgentPersonality)
    (a um : String) (user : Option String) (now : Nat) :
    (updateAgentPersonality cache a um user now).1.learned_phrases
      = ((cache a).getD (freshPersonality a now)).learned_phrases ++ extractCommonPhrases um
    ∧ (extractCommonPhrases um).length ≤ 5
    ∧ (∀ ph ∈ extractCommonPhrases um, 5 < ph.length
        ∧ ∃ i, i + 1 < (pyWords (strLower um)).length
            ∧ ph = (pyWords (strLower um)).getD i "" ++ " "
                ++ (pyWords (strLower um)).getD (i + 1) "")
    ∧ (updateAgentPersonality cache a um user now).2.memory_type = "personality_update"
    ∧ (updateAgentPersonality cache a um user now).2.importance = Rat.divInt 9 10
    ∧ (personalitySnapshot (updateAgentPersonality cache a um user now).1).learned_phrases
        = takeLast 10 (updateAgentPersonality cache a um user now).1.learned_phrases := by
  refine ⟨rfl, ?_, ?_, rfl, rfl, rfl⟩
  · exact List.length_take_le _ _
  · intro ph hph
    have hph' := List.mem_of_mem_take hph
    have h5 : decide (5 < ph.length) = true := (List.mem_filter.mp hph').2
    have hmem := (List.mem_filter.mp hph').1
    rcases List.mem_map.mp hmem with ⟨i, hi, rfl⟩
    have hilt : i < (pyWords (strLower um)).length - 1 := List.mem_range.mp hi
    exact ⟨of_decide_eq_true h5, i, by omega, rfl⟩

/-- Witness for C9 at a concrete message and phrase. -/
theorem learned_phrases_c9_amended_witness :
    5 < ("the database" : String).length
    ∧ ∃ i, i + 1 < (pyWords (strLower "the database is broken")).length
        ∧ "the database" = (pyWords (strLower "the database is broken")).getD i ""
            ++ " " ++ (pyWords (strLower "the database is broken")).getD (i + 1) "" :=
  (learned_phrases_c9_amended pCache0 "a" "the database is broken" none 0).2.2.1
    "the database" (by decide)

/-- Counterexample to C9 as stated: the cached `learned_phrases` list is
not bounded and does not keep only the most recent phrases — after three
learning events on a six-word message it holds all 15 extracted phrases,
exceeding the 10-phrase cap that applies only to the persisted
snapshot. -/
theorem learned_phrases_c9_counterexample :
    pers3.learned_phrases.length = 15 ∧ ¬(pers3.learned_phrases.length ≤ 10) := by
  constructor <;> decide

/-! ### Lemmas on where a store lands and what it preserves -/

theorem storeLocal1_len (log : List MemoryEntry) (e : MemoryEntry) :
    (storeLocal1 log e).length ≤ log.length + 1 := by
  unfold storeLocal1
  by_cases h : 1000 < (log ++ [e]).length
  · rw [if_pos h, List.length_drop]
    simp only [List.length_append, List.length_cons, List.length_nil]
    omega
  · rw [if_neg h]
    simp

theorem mem_storeLocal1_of_le (log : List MemoryEntry) (e x : MemoryEntry)
    (hx : x ∈ log) (hlen : log.length ≤ 999) : x ∈ storeLocal1 log e := by
  unfold storeLocal1
  rw [if_neg (by simp only [List.length_append, List.length_cons, List.length_nil]; omega)]
  exact List.mem_append_left _ hx

theorem storeLocalFun_len (m : String → List MemoryEntry) (e : MemoryEntry)
    (a : String) : (storeLocalFun m e a).length ≤ (m a).length + 1 := by
  rw [storeLocalFun_apply]
  by_cases h : a = e.agent_id
  · rw [if_pos h, h]
    exact storeLocal1_len _ _
  · rw [if_neg h]
    exact Nat.le_succ _

theorem localStep_mem_self (st : MMState) (e : MemoryEntry) :
    e ∈ entriesFor (localStep st e).1 e.agent_id := by
  unfold localStep entriesFor
  apply List.mem_append_right
  show e ∈ storeLocalFun st.localMem e e.agent_id
  rw [storeLocalFun_apply, if_pos rfl]
  exact mem_storeLocal1_self _ _

theorem dynamoStep_mem_self (cfg : MMConfig) (env : Env) (st : MMState)
    (e : MemoryEntry) : e ∈ entriesFor (dynamoStep cfg env st e).1 e.agent_id := by
  unfold dynamoStep
  cases htp : cfg.tablePresent with
  | false =>
    rw [if_pos (by decide)]
    exact localStep_mem_self st e
  | true =>
    rw [if_neg (by decide)]
    cases hdw : env.dynamoWriteFails with
    | true =>
      rw [if_pos rfl]
      exact localStep_mem_self st e
    | false =>
      rw [if_neg (by decide)]
      unfold entriesFor
      exact List.mem_append_left _ (List.mem_append_right _
        (List.mem_append_right _ (List.mem_singleton_self e)))

theorem bedrockStep_mem_self (cfg : MMConfig) (env : Env) (st : MMState)
    (e : MemoryEntry) : e ∈ entriesFor (bedrockStep cfg env st e).1 e.agent_id := by
  unfold bedrockStep
  cases hbw : env.bedrockWriteFails with
  | true =>
    rw [if_pos rfl]
    exact dynamoStep_mem_self cfg env st e
  | false =>
    rw [if_neg (by decide)]
    unfold entriesFor
    exact List.mem_append_left _ (List.mem_append_left _
      (List.mem_append_right _ (List.mem_singleton_self e)))

theorem storeMemory_mem_self (cfg : MMConfig) (env : Env) (st : MMState)
    (now : Nat) (w : WriteReq) :
    mkEntry st now w ∈ entriesFor (storeMemory cfg env st now w).2.1 w.agent := by
  unfold storeMemory
  cases hua : cfg.useAws <;> cases hub : cfg.useBedrock <;>
    simp only [Bool.and_true, Bool.and_false, Bool.true_and, Bool.false_and,
      Bool.and_self, if_true, if_false, Bool.false_eq_true, Bool.true_eq_false]
  · exact localStep_mem_self _ _
  · exact localStep_mem_self _ _
  · exact dynamoStep_mem_self _ _ _ _
  · exact bedrockStep_mem_self _ _ _ _

theorem localStep_pres (st : MMState) (e x : MemoryEntry) (a : String)
    (hx : x ∈ entriesFor st a) (hlen : (st.localMem a).length ≤ 999) :
    x ∈ entriesFor (localStep st e).1 a := by
  unfold entriesFor at hx
  unfold localStep entriesFor
  rcases List.mem_append.mp hx with hx | hx
  · exact List.mem_append_left _ hx
  · apply List.mem_append_right
    show x ∈ storeLocalFun st.localMem e a
    rw [storeLocalFun_apply]
    by_cases hae : a = e.agent_id
    · rw [if_pos hae, ← hae]
      exact mem_storeLocal1_of_le _ _ _ hx hlen
    · rw [if_neg hae]
      exact hx

theorem dynamoStep_pres (cfg : MMConfig) (env : Env) (st : MMState)
    (e x : MemoryEntry) (a : String) (hx : x ∈ entriesFor st a)
    (hlen : (st.localMem a).length ≤ 999) :
    x ∈ entriesFor (dynamoStep cfg env st e).1 a := by
  unfold dynamoStep
  cases htp : cfg.tablePresent with
  | false =>
    rw [if_pos (by decide)]
    exact localStep_pres st e x a hx hlen
  | true =>
    rw [if_neg (by decide)]
    cases hdw : env.dynamoWriteFails with
    | true =>
      rw [if_pos rfl]
      exact localStep_pres st e x a hx hlen
    | false =>
      rw [if_neg (by decide)]
      unfold entriesFor at hx ⊢
      rcases List.mem_append.mp hx with hx | hx
      · rcases List.mem_append.mp hx with hx | hx
        · exact List.mem_append_left _ (List.mem_append_left _ hx)
        · exact List.mem_append_left _ (List.mem_append_right _ (List.mem_append_left _ hx))
      · exact List.mem_append_right _ hx

theorem bedrockStep_pres (cfg : MMConfig) (env : Env) (st : MMState)
    (e x : MemoryEntry) (a : String) (hx : x ∈ entriesFor st a)
    (hlen : (st.localMem a).length ≤ 999) :
    x ∈ entriesFor (bedrockStep cfg env st e).1 a := by
  unfold bedrockStep
  cases hbw : env.bedrockWriteFails with
  | true =>
    rw [if_pos rfl]
    exact dynamoStep_pres cfg env st e x a hx hlen
  | false =>
    rw [if_neg (by decide)]
    unfold entriesFor at hx ⊢
    rcases List.mem_append.mp hx with hx | hx
    · rcases List.mem_append.mp hx with hx | hx
      · exact List.mem_append_left _ (List.mem_append_left _ (List.mem_append_left _ hx))
      · exact List.mem_append_left _ (List.mem_append_right _ hx)
    · exact List.mem_append_right _ hx

theorem storeMemory_pres (cfg : MMConfig) (env : Env) (st : MMState)
    (now : Nat) (w : WriteReq) (x : MemoryEntry) (a : String)
    (hx : x ∈ entriesFor st a) (hlen : (st.localMem a).length ≤ 999) :
    x ∈ entriesFor (storeMemory cfg env st now w).2.1 a := by
  unfold storeMemory
  cases hua : cfg.useAws <;> cases hub : cfg.useBedrock <;>
    simp only [Bool.and_true, Bool.and_false, Bool.true_and, Bool.false_and,
      Bool.and_self, if_true, if_false, Bool.false_eq_true, Bool.true_eq_false]
  · exact localStep_pres _ _ x a hx hlen
  · exact localStep_pres _ _ x a hx hlen
  · exact dynamoStep_pres _ _ _ _ x a hx hlen
  · exact bedrockStep_pres _ _ _ _ x a hx hlen

theorem dynamoStep_localLen (cfg : MMConfig) (env : Env) (st : MMState)
    (e : MemoryEntry) (a : String) :
    ((dynamoStep cfg env st e).1.localMem a).length ≤ (st.localMem a).length + 1 := by
  unfold dynamoStep
  cases htp : cfg.tablePresent with
  | false =>
    rw [if_pos (by decide)]
    exact storeLocalFun_len _ _ _
  | true =>
    rw [if_neg (by decide)]
    cases hdw : env.dynamoWriteFails with
    | true =>
      rw [if_pos rfl]
      exact storeLocalFun_len _ _ _
    | false =>
      rw [if_neg (by decide)]
      exact Nat.le_succ _

theorem bedrockStep_localLen (cfg : MMConfig) (env : Env) (st : MMState)
    (e : MemoryEntry) (a : String) :
    ((bedrockStep cfg env st e).1.localMem a).length ≤ (st.localMem a).length + 1 := by
  unfold bedrockStep
  cases hbw : env.bedrockWriteFails with
  | true =>
    rw [if_pos rfl]
    exact dynamoStep_localLen cfg env st e a
  | false =>
    rw [if_neg (by decide)]
    exact Nat.le_succ _

theorem storeMemory_localLen (cfg : MMConfig) (env : Env) (st : MMState)
    (now : Nat) (w : WriteReq) (a : String) :
    ((storeMemory cfg env st now w).2.1.localMem a).length ≤ (st.localMem a).length + 1 := by
  unfold storeMemory
  cases hua : cfg.useAws <;> cases hub : cfg.useBedrock <;>
    simp only [hua, hub, Bool.and_true, Bool.and_false, Bool.true_and, Bool.false_and,
      Bool.and_self, if_true, if_false, Bool.false_eq_true, Bool.true_eq_false]
  · exact storeLocalFun_len _ _ _
  · exact storeLocalFun_len _ _ _
  · exact dynamoStep_localLen _ _ _ _ _
  · exact bedrockStep_localLen _ _ _ _ _

theorem commitWrites_pres (cfg : MMConfig) (envs : Nat → Env) (now : Nat) :
    ∀ (ws : List WriteReq) (i : Nat) (st : MMState) (x : MemoryEntry) (a : String),
      x ∈ entriesFor st a → (st.localMem a).length + ws.length ≤ 1000 →
      x ∈ entriesFor (commitWrites cfg envs now i st ws) a := by
  intro ws
  induction ws with
  | nil => intro i st x a hx _; exact hx
  | cons w r ih =>
    intro i st x a hx hlen
    simp only [List.length_cons] at hlen
    show x ∈ entriesFor (commitWrites cfg envs now (i + 1)
      (storeMemory cfg (envs i) st now w).2.1 r) a
    apply ih
    · exact storeMemory_pres cfg (envs i) st now w x a hx (by omega)
    · have := storeMemory_localLen cfg (envs i) st now w a
      omega

theorem commitWrites_mem (cfg : MMConfig) (envs : Nat → Env) (now : Nat) :
    ∀ (ws : List WriteReq) (i : Nat) (st : MMState) (w : WriteReq),
      w ∈ ws → (st.localMem w.agent).length + ws.length ≤ 1000 →
      ∃ e ∈ entriesFor (commitWrites cfg envs now i st ws) w.agent,
        e.content = w.content ∧ e.memory_type = w.memory_type
        ∧ e.importance = w.importance ∧ e.tags = w.tags ∧ e.user_id = w.user_id := by
  intro ws
  induction ws with
  | nil => intro i st w hw; exact absurd hw (List.not_mem_nil w)
  | cons v r ih =>
    intro i st w hw hlen
    simp only [List.length_cons] at hlen
    rcases List.mem_cons.mp hw with rfl | hw
    · refine ⟨mkEntry st now w, ?_, rfl, rfl, rfl, rfl, rfl⟩
      show mkEntry st now w ∈ entriesFor (commitWrites cfg envs now (i + 1)
        (storeMemory cfg (envs i) st now w).2.1 r) w.agent
      apply commitWrites_pres cfg envs now r (i + 1) _ _ _
        (storeMemory_mem_self cfg (envs i) st now w)
      have := storeMemory_localLen cfg (envs i) st now w w.agent
      omega
    · show ∃ e ∈ entriesFor (commitWrites cfg envs now (i + 1)
        (storeMemory cfg (envs i) st now v).2.1 r) w.agent, _
      apply ih (i + 1) _ w hw
      have := storeMemory_localLen cfg (envs i) st now v w.agent
      omega

/-! ### C5: the writes of one learning exchange -/

/-- C5, amended.  The learning scenario
`learn_from_exchange("agentA", "Can you explain machine learning?",
"Sure! Machine learning (ML) uses data... [fenced python block]",
user_id="u1")` issues exactly six writes, among them one
kind=`conversation` at importance 0.7, one kind=`user_style` at 0.8, one
kind=`response_pattern` at 0.6, one kind=`personality_update` at 0.9,
and one kind=`knowledge` entry tagged `code, technical` whose content
contains the fenced code block verbatim; the write list is independent
of backend behaviour, and for every configuration and every per-call
assignment of the backend failures that `store_memory` suppresses (any
Bedrock exception, a DynamoDB `ClientError`, a missing table) each of
the writes lands in some tier of the resulting store.  There is no
per-write isolation beyond that: an uncaught store exception aborts the
remaining writes — see the counterexample. -/
theorem learn_writes_c5 :
    c5Writes.length = 6
    ∧ (c5Writes.getD 0 defaultWrite).memory_type = "conversation"
    ∧ (c5Writes.getD 0 defaultWrite).importance = Rat.divInt 7 10
    ∧ (c5Writes.getD 1 defaultWrite).memory_type = "user_style"
    ∧ (c5Writes.getD 1 defaultWrite).importance = Rat.divInt 4 5
    ∧ (c5Writes.getD 2 defaultWrite).memory_type = "response_pattern"
    ∧ (c5Writes.getD 2 defaultWrite).importance = Rat.divInt 3 5
    ∧ (c5Writes.getD 3 defaultWrite).memory_type = "personality_update"
    ∧ (c5Writes.getD 3 defaultWrite).importance = Rat.divInt 9 10
    ∧ (c5Writes.getD 5 defaultWrite).memory_type = "knowledge"
    ∧ (c5Writes.getD 5 defaultWrite).importance = Rat.divInt 9 10
    ∧ (c5Writes.getD 5 defaultWrite).tags = ["code", "technical"]
    ∧ containsSub c5Code (c5Writes.getD 5 defaultWrite).content = true
    ∧ (∀ w ∈ c5Writes, w.agent = "agentA")
    ∧ (∀ (cfg : MMConfig) (envs : Nat → Env) (now : Nat) (st : MMState),
        (st.localMem "agentA").length + c5Writes.length ≤ 1000 →
        ∀ w ∈ c5Writes,
          ∃ e ∈ entriesFor (commitWrites cfg envs now 0 st c5Writes) "agentA",
            e.content = w.content ∧ e.memory_type = w.memory_type
            ∧ e.importance = w.importance ∧ e.tags = w.tags) := by
  have hagents : ∀ w ∈ c5Writes, w.agent = "agentA" := by decide
  refine ⟨by decide, by decide, by decide, by decide, by decide, by decide, by decide,
    by decide, by decide, by decide, by decide, by decide, by decide, hagents, ?_⟩
  intro cfg envs now st hlen w hw
  have hag := hagents w hw
  have hlen' : (st.localMem w.agent).length + c5Writes.length ≤ 1000 := by
    rw [hag]; exact hlen
  rcases commitWrites_mem cfg envs now c5Writes 0 st w hw hlen' with ⟨e, he, h1, h2, h3, h4, _⟩
  rw [hag] at he
  exact ⟨e, he, h1, h2, h3, h4⟩

/-- Witness for C5: with every backend call failing on an empty store,
the knowledge write still lands. -/
theorem learn_writes_c5_witness :
    ∃ e ∈ entriesFor (commitWrites fullCfg (fun _ => envFailAll) 0 0 stEmpty c5Writes) "agentA",
      e.content = (c5Writes.getD 5 defaultWrite).content
      ∧ e.memory_type = (c5Writes.getD 5 defaultWrite).memory_type
      ∧ e.importance = (c5Writes.getD 5 defaultWrite).importance
      ∧ e.tags = (c5Writes.getD 5 defaultWrite).tags :=
  (learn_writes_c5.2.2.2.2.2.2.2.2.2.2.2.2.2.2 fullCfg (fun _ => envFailAll) 0 stEmpty
    (by decide) (c5Writes.getD 5 defaultWrite) (by decide))

/-- Counterexample to C5's independence clause as stated:
`learn_from_conversation` wraps no store call in its own handler, so
when the first store's `put_item` raises an uncaught (non-`ClientError`)
exception, the exception aborts the sequence before any further write —
the remaining five writes, the pending knowledge write included, never
land anywhere, even though their own backend calls would all have
succeeded.  The failure of one write blocks the others. -/
theorem learn_aborts_c5_counterexample :
    c5Writes.length = 6
    ∧ (c5Writes.getD 5 defaultWrite).memory_type = "knowledge"
    ∧ (commitWritesE awsCfg failFirstUncaught 0 0 stEmpty c5Writes).2 = true
    ∧ entriesFor (commitWritesE awsCfg failFirstUncaught 0 0 stEmpty c5Writes).1 "agentA"
      = [] := by
  exact ⟨by decide, by decide, by decide, by decide⟩

end AgentLearning
